import Mathlib

/-!
Verification of the Rowing SQL database application
(`Collegeite_SQL_Race_input`).

This file gives a shallow embedding of the parts of the code the claims
are about:

* the time-string parser `parse_time_input` and its callers
  (`utils/helpers.py`),
* the `Season` dataclass and `OverlapAnalyzer.analyze_overlap`
  (`utils/helpers.py`),
* the season bounds computed by
  `DatabaseManager.update_school_participation_by_id` (`database/manager.py`),
* a state model of the SQLite tables created by `database_initializer.py`
  together with the `DatabaseManager` operations that mutate them
  (`add_regatta`, `add_event`, `add_entry`, `add_result`, `delete_event`,
  `delete_regatta`, `add_school`, `update_school_field`).

Python strings are modelled as `List Char`; Python `int` values as `Int`
(`Nat` where the code can only produce non-negative values); SQL `REAL`
(Python `float`) values as exact rationals `ℚ`; SQL `NULL`able columns as
`Option`.  Fallible Python code (raising `ValueError` etc.) is modelled
with `Option`/`Except`.
-/

/-! ### Python string primitives

These model the Python `str` operations used by `parse_time_input` and its
neighbours: `str.strip`, `str.isdigit`, `in`, `str.split`, `str.ljust`,
slicing, and the `int(...)` constructor.  Python's `int` also accepts
underscore separators and non-ASCII unicode digits; those exotic forms are
not modelled (no claim depends on them).
-/

/-- Model of Python's whitespace test used by `str.strip`. -/
def pySpace (c : Char) : Bool :=
  c = ' ' ∨ c = '\t' ∨ c = '\n' ∨ c = '\r'

/-- Model of Python's `str.strip()`: drop whitespace from both ends. -/
def pyStrip (l : List Char) : List Char :=
  ((l.dropWhile pySpace).reverse.dropWhile pySpace).reverse

/-- Numeric value of a decimal digit character. -/
def digitVal (c : Char) : Nat := c.toNat - 48

/-- Value of a string of decimal digit characters, most significant first
(the value computed by Python's `int` on a plain digit string). -/
def digitsToNat (l : List Char) : Nat :=
  l.foldl (fun a c => 10 * a + digitVal c) 0

/-- Model of Python's `int(s)` for base-10 literals: optional sign followed
by at least one ASCII digit, surrounding whitespace ignored.  `none` models
the `ValueError` raised on any other input. -/
def pyInt (l : List Char) : Option Int :=
  match pyStrip l with
  | [] => none
  | c :: rest =>
    if c = '-' then
      if rest ≠ [] ∧ rest.all Char.isDigit then some (-(digitsToNat rest : Int)) else none
    else if c = '+' then
      if rest ≠ [] ∧ rest.all Char.isDigit then some (digitsToNat rest : Int) else none
    else if (c :: rest).all Char.isDigit then some (digitsToNat (c :: rest) : Int)
    else none

/-- Model of Python's `str.split(sep)` for a single-character separator:
splits at every occurrence, keeping empty pieces. -/
def splitOnChar (c : Char) : List Char → List (List Char)
  | [] => [[]]
  | x :: t =>
    if x = c then [] :: splitOnChar c t
    else
      match splitOnChar c t with
      | [] => [[x]]
      | h :: r => (x :: h) :: r

/-- Model of Python's `s.split(sep, 1)` destructured into two pieces, for a
single-character separator that occurs in `s`. -/
def splitFirst (c : Char) (l : List Char) : List Char × List Char :=
  (l.takeWhile (· ≠ c), (l.dropWhile (· ≠ c)).tail)

/-- Model of Python's `s.ljust(n, '0')`: pad on the right with `'0'` up to
length `n` (no-op when `s` is already long enough). -/
def ljustZero (n : Nat) (l : List Char) : List Char :=
  l ++ List.replicate (n - l.length) '0'

/-- Model of the Python slice `s[a:b]`. -/
def pySlice (l : List Char) (a b : Nat) : List Char :=
  (l.drop a).take (b - a)

/-- Decimal digit character for a value `0 ≤ n ≤ 9`. -/
def digitChar : Nat → Char
  | 0 => '0' | 1 => '1' | 2 => '2' | 3 => '3' | 4 => '4'
  | 5 => '5' | 6 => '6' | 7 => '7' | 8 => '8' | _ => '9'

/-- Decimal digit string of `n`, fuel-driven so that it reduces inside the
kernel.  `natDigitsAux fuel n` is the digit string of `n` provided
`n ≤ fuel` (and `n ≠ 0`). -/
def natDigitsAux : Nat → Nat → List Char
  | 0, _ => []
  | _ + 1, 0 => []
  | fuel + 1, n + 1 => natDigitsAux fuel ((n + 1) / 10) ++ [digitChar ((n + 1) % 10)]

/-- Decimal digit string of a natural number, as produced by Python's
`str(n)` for `n ≥ 0`: no sign, no leading zeros, `"0"` for zero. -/
def natDigits (n : Nat) : List Char :=
  if n = 0 then ['0'] else natDigitsAux n n

/-- Model of Python's `str(i)` on an `int`. -/
def intStr (i : Int) : List Char :=
  if i < 0 then '-' :: natDigits (-i).toNat else natDigits i.toNat

/-! ### Basic lemmas about the string primitives -/

theorem digitChar_isDigit (n : Nat) (h : n < 10) : (digitChar n).isDigit := by
  interval_cases n <;> decide

theorem digitVal_digitChar (n : Nat) (h : n < 10) : digitVal (digitChar n) = n := by
  interval_cases n <;> decide

theorem natDigitsAux_all_digit (fuel n : Nat) :
    ∀ c ∈ natDigitsAux fuel n, c.isDigit := by
  induction fuel generalizing n with
  | zero => simp [natDigitsAux]
  | succ fuel ih =>
    match n with
    | 0 => simp [natDigitsAux]
    | n + 1 =>
      intro c hc
      simp only [natDigitsAux, List.mem_append, List.mem_singleton] at hc
      rcases hc with hc | hc
      · exact ih _ c hc
      · subst hc; exact digitChar_isDigit _ (Nat.mod_lt _ (by omega))

theorem natDigits_all_digit (n : Nat) : ∀ c ∈ natDigits n, c.isDigit := by
  unfold natDigits
  split
  · simp
  · exact natDigitsAux_all_digit n n

theorem natDigitsAux_ne_nil (fuel n : Nat) (h1 : 0 < n) (h2 : n ≤ fuel) :
    natDigitsAux fuel n ≠ [] := by
  match fuel, n with
  | 0, _ => omega
  | _ + 1, 0 => omega
  | fuel + 1, n + 1 => simp [natDigitsAux]

theorem natDigits_ne_nil (n : Nat) : natDigits n ≠ [] := by
  unfold natDigits
  split
  · simp
  · exact natDigitsAux_ne_nil n n (by omega) le_rfl

theorem digitsToNat_append_singleton (l : List Char) (c : Char) :
    digitsToNat (l ++ [c]) = 10 * digitsToNat l + digitVal c := by
  simp [digitsToNat, List.foldl_append]

theorem digitsToNat_aux_acc (l : List Char) (a : Nat) :
    l.foldl (fun a c => 10 * a + digitVal c) a
      = a * 10 ^ l.length + digitsToNat l := by
  induction l generalizing a with
  | nil => simp [digitsToNat]
  | cons c t ih =>
    simp only [List.foldl_cons, List.length_cons, digitsToNat]
    rw [ih, ih (10 * 0 + digitVal c)]
    ring

theorem digitsToNat_natDigitsAux (fuel n : Nat) (h : n ≤ fuel) :
    digitsToNat (natDigitsAux fuel n) = n := by
  induction fuel generalizing n with
  | zero =>
    interval_cases n
    simp [natDigitsAux, digitsToNat]
  | succ fuel ih =>
    match n with
    | 0 => simp [natDigitsAux, digitsToNat]
    | n + 1 =>
      have hdiv : (n + 1) / 10 ≤ fuel := by
        have := Nat.div_le_self (n + 1) 10
        have := Nat.div_lt_self (show 0 < n + 1 by omega) (show 1 < 10 by omega)
        omega
      simp only [natDigitsAux]
      rw [digitsToNat_append_singleton, ih _ hdiv,
        digitVal_digitChar _ (Nat.mod_lt _ (by omega))]
      omega

theorem digitsToNat_natDigits (n : Nat) : digitsToNat (natDigits n) = n := by
  unfold natDigits
  split
  · simp_all [digitsToNat, digitVal]
  · exact digitsToNat_natDigitsAux n n le_rfl

theorem natDigitsAux_length_le (fuel n k : Nat) (h : n < 10 ^ k) :
    (natDigitsAux fuel n).length ≤ k := by
  induction fuel generalizing n k with
  | zero => simp [natDigitsAux]
  | succ fuel ih =>
    match n with
    | 0 => simp [natDigitsAux]
    | n + 1 =>
      match k with
      | 0 => simp at h
      | k + 1 =>
        have hdiv : (n + 1) / 10 < 10 ^ k := by
          rw [Nat.div_lt_iff_lt_mul (by omega)]
          calc n + 1 < 10 ^ (k + 1) := h
          _ = 10 ^ k * 10 := by ring
        simp only [natDigitsAux, List.length_append, List.length_singleton]
        have := ih ((n + 1) / 10) k hdiv
        omega

theorem natDigits_length_le (n k : Nat) (h1 : n < 10 ^ k) (h2 : 0 < k) :
    (natDigits n).length ≤ k := by
  unfold natDigits
  split
  · simpa
  · exact natDigitsAux_length_le n n k h1

/-! ### `parse_time_input` (`utils/helpers.py`, lines 209-300)

The parser first strips the input; if it contains `':'` or `'.'` it tries
the formatted branch (`mm:ss.fff` style), whose failures — including a
seconds value `≥ 60` — are caught and fall through to the smart digit
branch.  The digit branch keeps only the digit characters, errors on an
empty result, and otherwise reads minutes / seconds / milliseconds off
fixed digit positions, erroring when seconds `≥ 60`.
-/

/-- The seconds/milliseconds part of the formatted branch of
`parse_time_input` (helpers.py lines 243-251, also reused for the
`"404.123"` shape of lines 255-261): a piece `ss` or `ss.fff`, empty
pieces defaulting to 0.  `none` models a `ValueError` from `int(...)`. -/
def parseSecPart (sec_part : List Char) : Option (Int × Int) :=
  if '.' ∈ sec_part then
    match (if (splitFirst '.' sec_part).1 ≠ []
        then pyInt (splitFirst '.' sec_part).1 else some 0) with
    | none => none
    | some seconds =>
      match pyInt ((ljustZero 3 (splitFirst '.' sec_part).2).take 3) with
      | none => none
      | some milliseconds => some (seconds, milliseconds)
  else
    match (if sec_part ≠ [] then pyInt sec_part else some 0) with
    | none => none
    | some seconds => some (seconds, 0)

/-- The `try:` body of the formatted branch of `parse_time_input`
(helpers.py lines 234-269).  `none` models a caught `ValueError` or
`IndexError` — including the `raise` on seconds `≥ 60` — after which the
code falls through to digit parsing. -/
def parseFormatted (text : List Char) : Option (Int × Int × Int) :=
  if ':' ∈ text then
    match splitOnChar ':' text with
    | [] => none
    | time_part :: rest =>
      match (if time_part ≠ [] then pyInt time_part else some 0) with
      | none => none
      | some minutes =>
        match (match rest with
          | [] => some ((0 : Int), (0 : Int))
          | sec_part :: _ => parseSecPart sec_part) with
        | none => none
        | some (seconds, milliseconds) =>
          if seconds ≥ 60 then none else some (minutes, seconds, milliseconds)
  else
    match parseSecPart text with
    | none => none
    | some (seconds, milliseconds) =>
      if seconds ≥ 60 then none else some (0, seconds, milliseconds)

/-- The smart digit branch of `parse_time_input` (helpers.py lines
271-300), applied to the stripped text. -/
def parseDigits (text : List Char) : Except String (Int × Int × Int) :=
  let digits := text.filter Char.isDigit
  if digits = [] then .error "No digits found"
  else
    let (minutes, seconds, milliseconds) :=
      if digits.length ≤ 6 then
        let d := ljustZero 6 digits
        (digitsToNat (pySlice d 0 1), digitsToNat (pySlice d 1 3),
          digitsToNat (pySlice d 3 6))
      else
        let extra_digits := digits.take (digits.length - 6)
        let core_digits := digits.drop (digits.length - 6)
        (digitsToNat extra_digits * 10 + digitsToNat (pySlice core_digits 0 1),
          digitsToNat (pySlice core_digits 1 3), digitsToNat (pySlice core_digits 3 6))
    if seconds ≥ 60 then .error "Seconds must be less than 60"
    else .ok ((minutes : Int), (seconds : Int), (milliseconds : Int))

/-- Model of `parse_time_input` (helpers.py lines 209-300).  `.error msg`
models `raise ValueError(msg)`. -/
def parse_time_input (input : List Char) : Except String (Int × Int × Int) :=
  let text := pyStrip input
  match (if ':' ∈ text ∨ '.' ∈ text then parseFormatted text else none) with
  | some r => .ok r
  | none => parseDigits text

/-- Model of `time_to_seconds` (helpers.py lines 311-317).  The Python
`float` arithmetic `minutes * 60 + seconds + milliseconds / 1000.0` is
modelled exactly over `ℚ`. -/
def time_to_seconds (time_str : List Char) : ℚ :=
  match parse_time_input time_str with
  | .ok (minutes, seconds, milliseconds) =>
    (minutes : ℚ) * 60 + (seconds : ℚ) + (milliseconds : ℚ) / 1000
  | .error _ => 0

/-- Python's `f"{i:0wd}"` zero-padding of an `int` to width `w` (the sign,
when present, counts towards the width). -/
def intPad (w : Nat) (i : Int) : List Char :=
  if i < 0 then
    '-' :: (List.replicate (w - 1 - (natDigits (-i).toNat).length) '0'
      ++ natDigits (-i).toNat)
  else List.replicate (w - (natDigits i.toNat).length) '0' ++ natDigits i.toNat

/-- The normalized time string `f"{m:02d}:{s:02d}.{ms:03d}"` built by
`TimeEntry._normalize` (widgets/time_entries.py line 375). -/
def fmtTime (m s ms : Int) : List Char :=
  intPad 2 m ++ ':' :: (intPad 2 s ++ '.' :: intPad 3 ms)

/-- Model of `TimeEntry._normalize` (widgets/time_entries.py lines
365-388): on a successful parse the field text is replaced by the
normalized string; on failure (`none`) the text is left alone and an error
dialog is shown. -/
def timeEntryNormalize (text : List Char) : Option (List Char) :=
  match parse_time_input text with
  | .ok (m, s, ms) => some (fmtTime m s ms)
  | .error _ => none

deriving instance DecidableEq for Except

/-! ### Lemmas about stripping and filtering -/

theorem dropWhile_eq_self_of_all {p : Char → Bool} (l : List Char)
    (h : ∀ c ∈ l, p c = false) : l.dropWhile p = l := by
  cases l with
  | nil => rfl
  | cons c t => simp [List.dropWhile_cons, h c (List.mem_cons_self c t)]

theorem pyStrip_eq_self (l : List Char) (h : ∀ c ∈ l, pySpace c = false) :
    pyStrip l = l := by
  unfold pyStrip
  rw [dropWhile_eq_self_of_all l h,
    dropWhile_eq_self_of_all _ (fun c hc => h c (List.mem_reverse.mp hc)),
    List.reverse_reverse]

theorem pyStrip_sublist (l : List Char) : (pyStrip l).Sublist l := by
  unfold pyStrip
  have h1 : (List.dropWhile pySpace l).Sublist l := List.dropWhile_sublist _
  have h2 := (List.dropWhile_sublist
    (l := (List.dropWhile pySpace l).reverse) pySpace).reverse
  rw [List.reverse_reverse] at h2
  exact h2.trans h1

theorem mem_of_mem_pyStrip {c : Char} {l : List Char} (h : c ∈ pyStrip l) :
    c ∈ l :=
  (pyStrip_sublist l).subset h

theorem filter_dropWhile {p q : Char → Bool} (l : List Char)
    (h : ∀ c, q c = true → p c = false) :
    (l.dropWhile q).filter p = l.filter p := by
  induction l with
  | nil => rfl
  | cons c t ih =>
    by_cases hq : q c
    · simp [List.dropWhile_cons, hq, ih, List.filter_cons, h c hq]
    · simp [List.dropWhile_cons, hq]

theorem filter_pyStrip (p : Char → Bool) (hp : ∀ c, pySpace c = true → p c = false)
    (l : List Char) : (pyStrip l).filter p = l.filter p := by
  unfold pyStrip
  rw [List.filter_reverse, filter_dropWhile _ hp, List.filter_reverse,
    List.reverse_reverse, filter_dropWhile _ hp]

theorem pySpace_not_isDigit : ∀ c : Char, pySpace c = true → c.isDigit = false := by
  intro c hc
  simp only [pySpace, decide_eq_true_eq] at hc
  rcases hc with h | h | h | h <;> subst h <;> decide

/-! ### C2: the smart digit branch -/

/-- C2.  For an input containing neither `':'` nor `'.'` whose digit
characters number between 1 and 6, `parse_time_input` right-pads the digit
string with `'0'` to six digits `d1 d2 d3 d4 d5 d6` and returns
`(d1, d2 d3, d4 d5 d6)` — first digit minutes, next two seconds, last
three milliseconds — provided the seconds value `d2 d3` is below 60.
In particular `parse_time_input "704" = (7, 4, 0)`. -/
theorem parse_time_input_smart_digits (l : List Char)
    (hc : ':' ∉ l) (hd : '.' ∉ l)
    (hlen1 : 1 ≤ (l.filter Char.isDigit).length)
    (hlen6 : (l.filter Char.isDigit).length ≤ 6)
    (hsec : digitsToNat (pySlice (ljustZero 6 (l.filter Char.isDigit)) 1 3) < 60) :
    parse_time_input l =
      .ok ((digitsToNat (pySlice (ljustZero 6 (l.filter Char.isDigit)) 0 1) : Int),
        (digitsToNat (pySlice (ljustZero 6 (l.filter Char.isDigit)) 1 3) : Int),
        (digitsToNat (pySlice (ljustZero 6 (l.filter Char.isDigit)) 3 6) : Int)) := by
  have hfil : (pyStrip l).filter Char.isDigit = l.filter Char.isDigit :=
    filter_pyStrip _ pySpace_not_isDigit l
  have hc' : ':' ∉ pyStrip l := fun h => hc (mem_of_mem_pyStrip h)
  have hd' : '.' ∉ pyStrip l := fun h => hd (mem_of_mem_pyStrip h)
  have hne : l.filter Char.isDigit ≠ [] := by
    intro h
    rw [h] at hlen1
    simp at hlen1
  have hcond : ¬(':' ∈ pyStrip l ∨ '.' ∈ pyStrip l) := by simp [hc', hd']
  unfold parse_time_input parseDigits
  simp only [if_neg hcond, hfil, if_neg hne, if_pos hlen6,
    if_neg (show ¬digitsToNat (pySlice (ljustZero 6 (l.filter Char.isDigit)) 1 3) ≥ 60
      by omega)]

/-- Witness for C2 at the concrete input `"704"`. -/
theorem parse_time_input_smart_digits_witness :
    (':' ∉ "704".data) ∧ ('.' ∉ "704".data) ∧
      1 ≤ ("704".data.filter Char.isDigit).length ∧
      ("704".data.filter Char.isDigit).length ≤ 6 ∧
      digitsToNat (pySlice (ljustZero 6 ("704".data.filter Char.isDigit)) 1 3) < 60 ∧
      parse_time_input "704".data = .ok (7, 4, 0) := by
  refine ⟨by decide, by decide, by decide, by decide, by decide, ?_⟩
  rw [parse_time_input_smart_digits "704".data (by decide) (by decide) (by decide)
    (by decide) (by decide)]
  decide

/-! ### C4: failure modes of `parse_time_input` -/

theorem parseFormatted_seconds_lt (t : List Char) (m s ms : Int)
    (h : parseFormatted t = some (m, s, ms)) : s < 60 := by
  unfold parseFormatted at h
  split at h
  · split at h
    · simp at h
    · split at h
      · simp at h
      · split at h
        · simp at h
        · split at h
          · simp at h
          · simp only [Option.some_inj, Prod.mk.injEq] at h
            omega
  · split at h
    · simp at h
    · split at h
      · simp at h
      · simp only [Option.some_inj, Prod.mk.injEq] at h
        omega

theorem parseDigits_ok_seconds_lt (t : List Char) (m s ms : Int)
    (h : parseDigits t = .ok (m, s, ms)) : s < 60 := by
  unfold parseDigits at h
  dsimp only at h
  split at h
  · simp at h
  · split at h <;> split at h
    · simp at h
    · rename_i hguard
      simp only [Except.ok.injEq, Prod.mk.injEq] at h
      dsimp only at hguard
      omega
    · simp at h
    · rename_i hguard
      simp only [Except.ok.injEq, Prod.mk.injEq] at h
      dsimp only at hguard
      omega

theorem parseDigits_error_msgs (t : List Char) (e : String)
    (h : parseDigits t = .error e) :
    e = "No digits found" ∨ e = "Seconds must be less than 60" := by
  unfold parseDigits at h
  dsimp only at h
  split at h
  · simp only [Except.error.injEq] at h
    exact Or.inl h.symm
  · split at h <;> split at h <;>
      first
        | (simp only [Except.error.injEq] at h; exact Or.inr h.symm)
        | simp at h

/-- C4 (amended).  `parse_time_input` is total and fails only with one of
its two `ValueError` messages; when the input contains no digit character
*and* neither `':'` nor `'.'` it raises `ValueError("No digits found")`
(with `':'` or `'.'` present the formatted branch may succeed on a
digit-free input, see the counterexample); and a returned triple never has
seconds `≥ 60`. -/
theorem parse_time_input_failure_modes (l : List Char) :
    (∀ e, parse_time_input l = .error e →
      e = "No digits found" ∨ e = "Seconds must be less than 60") ∧
    ((∀ c ∈ l, c.isDigit = false) → ':' ∉ l → '.' ∉ l →
      parse_time_input l = .error "No digits found") ∧
    (∀ m s ms, parse_time_input l = .ok (m, s, ms) → s < 60) := by
  refine ⟨?_, ?_, ?_⟩
  · intro e he
    unfold parse_time_input at he
    dsimp only at he
    rcases hx : (if ':' ∈ pyStrip l ∨ '.' ∈ pyStrip l
        then parseFormatted (pyStrip l) else none) with - | r
    · rw [hx] at he
      exact parseDigits_error_msgs _ _ he
    · rw [hx] at he
      simp at he
  · intro hnd hc hd
    have hfil : (pyStrip l).filter Char.isDigit = [] := by
      rw [filter_pyStrip _ pySpace_not_isDigit]
      refine List.filter_eq_nil_iff.mpr ?_
      intro c hcl
      simp [hnd c hcl]
    have hcond : ¬(':' ∈ pyStrip l ∨ '.' ∈ pyStrip l) := by
      rintro (h | h)
      exacts [hc (mem_of_mem_pyStrip h), hd (mem_of_mem_pyStrip h)]
    unfold parse_time_input
    dsimp only
    rw [if_neg hcond]
    show parseDigits (pyStrip l) = _
    unfold parseDigits
    dsimp only
    rw [hfil]
    simp
  · intro m s ms hok
    unfold parse_time_input at hok
    dsimp only at hok
    rcases hx : (if ':' ∈ pyStrip l ∨ '.' ∈ pyStrip l
        then parseFormatted (pyStrip l) else none) with - | r
    · rw [hx] at hok
      exact parseDigits_ok_seconds_lt _ _ _ _ hok
    · rw [hx] at hok
      by_cases hcond : ':' ∈ pyStrip l ∨ '.' ∈ pyStrip l
      · rw [if_pos hcond] at hx
        have hr : r = (m, s, ms) := by simpa using hok
        subst hr
        exact parseFormatted_seconds_lt _ _ _ _ hx
      · rw [if_neg hcond] at hx
        simp at hx

/-- C4 counterexample: the input `":"` contains no decimal digit yet
`parse_time_input` returns `(0, 0, 0)` instead of raising `ValueError`
(the formatted branch parses the empty minute and second pieces as 0). -/
theorem parse_time_input_colon_counterexample :
    (∀ c ∈ ":".data, c.isDigit = false) ∧
      parse_time_input ":".data = .ok (0, 0, 0) :=
  ⟨by decide, by decide⟩

/-- Witness for C4 at the concrete inputs `"xy"` (all-letters: the
`No digits found` error) and `"704"` (a successful parse with seconds
`4 < 60`). -/
theorem parse_time_input_failure_modes_witness :
    parse_time_input "xy".data = .error "No digits found" ∧ (4 : Int) < 60 := by
  constructor
  · exact (parse_time_input_failure_modes "xy".data).2.1 (by decide) (by decide)
      (by decide)
  · exact (parse_time_input_failure_modes "704".data).2.2 7 4 0 (by decide)

/-! ### C10: `time_to_seconds` -/

/-- C10.  `time_to_seconds` is total: when `parse_time_input` succeeds
with `(m, s, ms)` it returns `m * 60 + s + ms / 1000` (float arithmetic
modelled over `ℚ`), and when `parse_time_input` raises `ValueError` it
returns `0.0` — every unparseable time string silently maps to 0. -/
theorem time_to_seconds_total (l : List Char) :
    (∀ m s ms : Int, parse_time_input l = .ok (m, s, ms) →
      time_to_seconds l = (m : ℚ) * 60 + (s : ℚ) + (ms : ℚ) / 1000) ∧
    (∀ e, parse_time_input l = .error e → time_to_seconds l = 0) := by
  constructor
  · intro m s ms h
    unfold time_to_seconds
    rw [h]
  · intro e h
    unfold time_to_seconds
    rw [h]

/-- Witness for C10 at `"704"` (parse succeeds, 424 seconds) and `"xy"`
(parse fails, 0 seconds). -/
theorem time_to_seconds_total_witness :
    parse_time_input "704".data = .ok (7, 4, 0) ∧
      time_to_seconds "704".data = (7 : ℚ) * 60 + 4 + 0 / 1000 ∧
      parse_time_input "xy".data = .error "No digits found" ∧
      time_to_seconds "xy".data = 0 := by
  refine ⟨by decide, ?_, by decide, ?_⟩
  · exact (time_to_seconds_total "704".data).1 7 4 0 (by decide)
  · exact (time_to_seconds_total "xy".data).2 "No digits found" (by decide)

/-! ### Lemmas for the normalization round-trip (C9) -/

theorem ne_of_isDigit {c d : Char} (h : c.isDigit = true)
    (hd : d.isDigit = false) : c ≠ d := by
  intro he
  subst he
  rw [h] at hd
  cases hd

theorem pySpace_eq_false_of_isDigit {c : Char} (h : c.isDigit = true) :
    pySpace c = false := by
  by_contra hc
  rw [Bool.not_eq_false] at hc
  simp only [pySpace, decide_eq_true_eq] at hc
  rcases hc with h' | h' | h' | h' <;> subst h' <;> exact absurd h (by decide)

theorem digitsToNat_replicate_zero_append (k : Nat) (l : List Char) :
    digitsToNat (List.replicate k '0' ++ l) = digitsToNat l := by
  induction k with
  | zero => rfl
  | succ k ih =>
    rw [List.replicate_succ, List.cons_append]
    show List.foldl _ (10 * 0 + digitVal '0') _ = _
    have hz : 10 * 0 + digitVal '0' = 0 := by decide
    rw [hz]
    exact ih

/-- `intPad` on a non-negative value is left zero-padding of the digit
string. -/
theorem intPad_ofNat (w n : Nat) :
    intPad w (n : Int) =
      List.replicate (w - (natDigits n).length) '0' ++ natDigits n := by
  unfold intPad
  rw [if_neg (by omega), Int.toNat_natCast]

theorem intPad_all_digit (w n : Nat) : ∀ c ∈ intPad w (n : Int), c.isDigit := by
  rw [intPad_ofNat]
  intro c hc
  rcases List.mem_append.mp hc with h | h
  · rw [List.eq_of_mem_replicate h]
    decide
  · exact natDigits_all_digit n c h

theorem intPad_ne_nil (w n : Nat) : intPad w (n : Int) ≠ [] := by
  rw [intPad_ofNat]
  intro h
  rcases List.append_eq_nil.mp h with ⟨-, h2⟩
  exact natDigits_ne_nil n h2

theorem digitsToNat_intPad (w n : Nat) : digitsToNat (intPad w (n : Int)) = n := by
  rw [intPad_ofNat, digitsToNat_replicate_zero_append, digitsToNat_natDigits]

theorem pyInt_all_digit (l : List Char) (h : ∀ c ∈ l, c.isDigit) (hne : l ≠ []) :
    pyInt l = some (digitsToNat l : Int) := by
  have hstrip : pyStrip l = l :=
    pyStrip_eq_self l (fun c hc => pySpace_eq_false_of_isDigit (h c hc))
  unfold pyInt
  rw [hstrip]
  match l, hne, h with
  | c :: rest, _, h =>
    have hc := h c (List.mem_cons_self c rest)
    dsimp only
    rw [if_neg (ne_of_isDigit hc (by decide)), if_neg (ne_of_isDigit hc (by decide)),
      if_pos (List.all_eq_true.mpr (fun x hx => h x hx))]

theorem pyInt_intPad (w n : Nat) : pyInt (intPad w (n : Int)) = some (n : Int) := by
  rw [pyInt_all_digit _ (intPad_all_digit w n) (intPad_ne_nil w n), digitsToNat_intPad]

theorem intPad_length_eq (w n : Nat) (h1 : n < 10 ^ w) (h2 : 0 < w) :
    (intPad w (n : Int)).length = w := by
  rw [intPad_ofNat]
  have := natDigits_length_le n w h1 h2
  simp only [List.length_append, List.length_replicate]
  omega

theorem splitOnChar_not_mem (c : Char) (l : List Char) (h : c ∉ l) :
    splitOnChar c l = [l] := by
  induction l with
  | nil => rfl
  | cons a t ih =>
    have ha : a ≠ c := fun he => h (he ▸ List.mem_cons_self a t)
    have ht : c ∉ t := fun hm => h (List.mem_cons_of_mem a hm)
    simp only [splitOnChar]
    rw [if_neg ha, ih ht]

theorem splitOnChar_append (c : Char) (xs ys : List Char) (h : c ∉ xs) :
    splitOnChar c (xs ++ c :: ys) = xs :: splitOnChar c ys := by
  induction xs with
  | nil =>
    show splitOnChar c (c :: ys) = [] :: splitOnChar c ys
    simp [splitOnChar]
  | cons a t ih =>
    have ha : a ≠ c := fun he => h (he ▸ List.mem_cons_self a t)
    have ht : c ∉ t := fun hm => h (List.mem_cons_of_mem a hm)
    show splitOnChar c (a :: (t ++ c :: ys)) = _
    simp only [splitOnChar]
    rw [if_neg ha, ih ht]

theorem takeWhile_ne_append (c : Char) (xs ys : List Char) (h : c ∉ xs) :
    ((xs ++ c :: ys).takeWhile (· ≠ c)) = xs := by
  induction xs with
  | nil => simp [List.takeWhile_cons]
  | cons a t ih =>
    have ha : a ≠ c := fun he => h (he ▸ List.mem_cons_self a t)
    have ht : c ∉ t := fun hm => h (List.mem_cons_of_mem a hm)
    simp only [List.cons_append, List.takeWhile_cons, decide_eq_true_eq]
    rw [if_pos ha, ih ht]

theorem dropWhile_ne_append (c : Char) (xs ys : List Char) (h : c ∉ xs) :
    ((xs ++ c :: ys).dropWhile (· ≠ c)) = c :: ys := by
  induction xs with
  | nil => simp [List.dropWhile_cons]
  | cons a t ih =>
    have ha : a ≠ c := fun he => h (he ▸ List.mem_cons_self a t)
    have ht : c ∉ t := fun hm => h (List.mem_cons_of_mem a hm)
    simp only [List.cons_append, List.dropWhile_cons, decide_eq_true_eq]
    rw [if_pos ha, ih ht]

theorem splitFirst_append (c : Char) (xs ys : List Char) (h : c ∉ xs) :
    splitFirst c (xs ++ c :: ys) = (xs, ys) := by
  unfold splitFirst
  rw [takeWhile_ne_append c xs ys h, dropWhile_ne_append c xs ys h]
  rfl

theorem not_mem_intPad_of_not_digit {c : Char} (hc : c.isDigit = false)
    (w n : Nat) : c ∉ intPad w (n : Int) := by
  intro hmem
  rw [intPad_all_digit w n c hmem] at hc
  cases hc

theorem parseSecPart_fmt (s ms : Nat) (hms : ms ≤ 999) :
    parseSecPart (intPad 2 (s : Int) ++ '.' :: intPad 3 (ms : Int)) =
      some ((s : Int), (ms : Int)) := by
  have hdot : '.' ∉ intPad 2 (s : Int) := not_mem_intPad_of_not_digit (by decide) 2 s
  have hlen : (intPad 3 (ms : Int)).length = 3 :=
    intPad_length_eq 3 ms (by omega) (by omega)
  unfold parseSecPart
  rw [if_pos (List.mem_append_right _ (List.mem_cons_self _ _))]
  rw [splitFirst_append '.' _ _ hdot]
  dsimp only
  rw [if_pos (intPad_ne_nil 2 s), pyInt_intPad 2 s]
  have hljust : ljustZero 3 (intPad 3 (ms : Int)) = intPad 3 (ms : Int) := by
    unfold ljustZero
    rw [hlen]
    simp
  rw [hljust, List.take_of_length_le (by omega), pyInt_intPad 3 ms]

theorem parseFormatted_fmtTime (m s ms : Nat) (hs : s ≤ 59) (hms : ms ≤ 999) :
    parseFormatted (fmtTime (m : Int) (s : Int) (ms : Int)) =
      some ((m : Int), (s : Int), (ms : Int)) := by
  have hcm : ':' ∉ intPad 2 (m : Int) := not_mem_intPad_of_not_digit (by decide) 2 m
  have hcrest : ':' ∉ intPad 2 (s : Int) ++ '.' :: intPad 3 (ms : Int) := by
    intro hmem
    rcases List.mem_append.mp hmem with h | h
    · exact not_mem_intPad_of_not_digit (by decide) 2 s h
    · rcases List.mem_cons.mp h with h | h
      · cases h
      · exact not_mem_intPad_of_not_digit (by decide) 3 ms h
  have hcolon : ':' ∈ fmtTime (m : Int) (s : Int) (ms : Int) :=
    List.mem_append_right _ (List.mem_cons_self _ _)
  unfold parseFormatted
  rw [if_pos hcolon]
  show (match splitOnChar ':' (intPad 2 (m : Int) ++ ':' ::
      (intPad 2 (s : Int) ++ '.' :: intPad 3 (ms : Int))) with
    | [] => none
    | time_part :: rest => _) = _
  rw [splitOnChar_append ':' _ _ hcm, splitOnChar_not_mem ':' _ hcrest]
  dsimp only
  rw [if_pos (intPad_ne_nil 2 m), pyInt_intPad 2 m]
  dsimp only
  rw [parseSecPart_fmt s ms hms]
  dsimp only
  rw [if_neg (by omega)]

/-- C9.  Round-trip of time normalization: for any minutes `m ≥ 0`,
seconds `0 ≤ s ≤ 59` and milliseconds `0 ≤ ms ≤ 999`, `parse_time_input`
applied to the normalized string `f"{m:02d}:{s:02d}.{ms:03d}"` returns
exactly `(m, s, ms)`; consequently `TimeEntry._normalize` is idempotent —
normalizing an already-normalized time string leaves the text unchanged. -/
theorem time_normalization_roundtrip (m s ms : Nat) (hs : s ≤ 59) (hms : ms ≤ 999) :
    parse_time_input (fmtTime (m : Int) (s : Int) (ms : Int)) =
      .ok ((m : Int), (s : Int), (ms : Int)) ∧
    timeEntryNormalize (fmtTime (m : Int) (s : Int) (ms : Int)) =
      some (fmtTime (m : Int) (s : Int) (ms : Int)) := by
  have hno_space : ∀ c ∈ fmtTime (m : Int) (s : Int) (ms : Int), pySpace c = false := by
    intro c hc
    unfold fmtTime at hc
    rcases List.mem_append.mp hc with h | h
    · exact pySpace_eq_false_of_isDigit (intPad_all_digit 2 m c h)
    · rcases List.mem_cons.mp h with h | h
      · subst h; decide
      · rcases List.mem_append.mp h with h | h
        · exact pySpace_eq_false_of_isDigit (intPad_all_digit 2 s c h)
        · rcases List.mem_cons.mp h with h | h
          · subst h; decide
          · exact pySpace_eq_false_of_isDigit (intPad_all_digit 3 ms c h)
  have hstrip : pyStrip (fmtTime (m : Int) (s : Int) (ms : Int)) =
      fmtTime (m : Int) (s : Int) (ms : Int) :=
    pyStrip_eq_self _ hno_space
  have hcolon : ':' ∈ fmtTime (m : Int) (s : Int) (ms : Int) :=
    List.mem_append_right _ (List.mem_cons_self _ _)
  have hparse : parse_time_input (fmtTime (m : Int) (s : Int) (ms : Int)) =
      .ok ((m : Int), (s : Int), (ms : Int)) := by
    unfold parse_time_input
    dsimp only
    rw [hstrip, if_pos (Or.inl hcolon), parseFormatted_fmtTime m s ms hs hms]
  refine ⟨hparse, ?_⟩
  unfold timeEntryNormalize
  rw [hparse]

/-- Witness for C9 at `m = 7`, `s = 4`, `ms = 123` (the string
`"07:04.123"`). -/
theorem time_normalization_roundtrip_witness :
    (4 : Nat) ≤ 59 ∧ (123 : Nat) ≤ 999 ∧
      parse_time_input (fmtTime 7 4 123) = .ok (7, 4, 123) ∧
      timeEntryNormalize (fmtTime 7 4 123) = some (fmtTime 7 4 123) := by
  have h := time_normalization_roundtrip 7 4 123 (by decide) (by decide)
  exact ⟨by decide, by decide, by exact_mod_cast h.1, by exact_mod_cast h.2⟩

/-! ### `Season` and `OverlapAnalyzer` (`utils/helpers.py`, lines 322-430)

`Season.end_year is None` models a current/ongoing season.  Years are
Python ints, modelled as `Int`.
-/

/-- The `Season` dataclass (helpers.py lines 322-346). -/
structure Season where
  start_year : Int
  end_year : Option Int
deriving DecidableEq

namespace Season

/-- `Season.display_name`: `f"{start_year} - current"` or
`f"{start_year}-{end_year}"`. -/
def display_name (s : Season) : List Char :=
  match s.end_year with
  | none => intStr s.start_year ++ " - current".data
  | some e => intStr s.start_year ++ '-' :: intStr e

/-- `Season.start_date`: `f"{start_year}-09-01"`. -/
def start_date (s : Season) : List Char :=
  intStr s.start_year ++ "-09-01".data

/-- `Season.end_date`: `None` for a current season, else
`f"{end_year}-08-31"`. -/
def end_date (s : Season) : Option (List Char) :=
  match s.end_year with
  | none => none
  | some e => some (intStr e ++ "-08-31".data)

/-- `Season.is_current`. -/
def is_current (s : Season) : Bool := s.end_year.isNone

end Season

/-- Helper for the Python pattern
`o is not None and o < y` on an optional year (used for the year-gap
cases of `analyze_overlap`). -/
def endYearLt (o : Option Int) (y : Int) : Bool :=
  match o with
  | some e => decide (e < y)
  | none => false

namespace OverlapAnalyzer

/-- `OverlapAnalyzer.analyze_overlap` (helpers.py lines 366-430),
translated branch by branch.  The `9999` sentinel models
`new_season.end_year if new_season.end_year is not None else 9999`. -/
def analyze_overlap (new_season existing_season : Season) : String :=
  if new_season.start_year = existing_season.start_year ∧
      new_season.end_year = existing_season.end_year then "EXACT_MATCH"
  else if existing_season.end_year = some new_season.start_year then "NO_OVERLAP"
  else if new_season.end_year = some existing_season.start_year then "NO_OVERLAP"
  else if endYearLt existing_season.end_year new_season.start_year then "NO_OVERLAP"
  else if endYearLt new_season.end_year existing_season.start_year then "NO_OVERLAP"
  else if existing_season.is_current ∧ new_season.is_current ∧
      new_season.start_year = existing_season.start_year + 1 then
    "ADJACENT_CURRENT_SEASONS"
  else if existing_season.is_current ∧ ¬new_season.is_current ∧
      new_season.start_year = existing_season.start_year + 1 then
    "ADJACENT_CURRENT_TO_FINITE"
  else
    let new_end := new_season.end_year.getD 9999
    let existing_end := existing_season.end_year.getD 9999
    if new_season.start_year ≤ existing_season.start_year ∧
        new_end ≥ existing_end then "NEW_CONTAINS_EXISTING"
    else if existing_season.start_year ≤ new_season.start_year ∧
        existing_end ≥ new_end then "EXISTING_CONTAINS_NEW"
    else if new_season.start_year < existing_season.start_year ∧
        new_end ≥ existing_season.start_year then "OVERLAP_START"
    else if new_season.start_year ≤ existing_end ∧
        new_season.start_year > existing_season.start_year then "OVERLAP_END"
    else "NO_OVERLAP"

end OverlapAnalyzer

/-- Day number of Sept 1 of year `y` under an order-preserving encoding of
calendar dates `(year, month, day) ↦ (year * 12 + month) * 31 + day`. -/
def seasonStartDay (y : Int) : Int := (y * 12 + 9) * 31 + 1

/-- Day number of Aug 31 of year `y` under the same encoding. -/
def seasonEndDay (y : Int) : Int := (y * 12 + 8) * 31 + 31

set_option maxHeartbeats 1000000 in
/-- C1.  For well-formed finite seasons (`start_year < end_year` both),
`analyze_overlap` returns `"NO_OVERLAP"` iff the academic-year date ranges
(Sept 1 of the start year through Aug 31 of the end year, under an
order-preserving day encoding) are disjoint, equivalently iff
`new.start_year ≥ existing.end_year ∨ existing.start_year ≥ new.end_year`;
adjacent seasons (one ending the year the other starts) are classified
non-overlapping, and genuinely overlapping ranges always yield one of the
five overlap classifications, never the `"NO_OVERLAP"` fallback. -/
theorem analyze_overlap_finite_no_overlap_iff (a b c d : Int)
    (hab : a < b) (hcd : c < d) :
    ((∀ t : Int, ¬(seasonStartDay a ≤ t ∧ t ≤ seasonEndDay b ∧
        seasonStartDay c ≤ t ∧ t ≤ seasonEndDay d)) ↔ (d ≤ a ∨ b ≤ c)) ∧
    (OverlapAnalyzer.analyze_overlap ⟨a, some b⟩ ⟨c, some d⟩ = "NO_OVERLAP" ↔
      (d ≤ a ∨ b ≤ c)) ∧
    (¬(d ≤ a ∨ b ≤ c) →
      OverlapAnalyzer.analyze_overlap ⟨a, some b⟩ ⟨c, some d⟩ ∈
        (["EXACT_MATCH", "NEW_CONTAINS_EXISTING", "EXISTING_CONTAINS_NEW",
          "OVERLAP_START", "OVERLAP_END"] : List String)) := by
  refine ⟨?_, ?_, ?_⟩
  · constructor
    · intro h
      by_contra hno
      push_neg at hno
      rcases le_total a c with hac | hca
      · refine h (seasonStartDay c) ?_
        unfold seasonStartDay seasonEndDay
        omega
      · refine h (seasonStartDay a) ?_
        unfold seasonStartDay seasonEndDay
        omega
    · intro hd t ht
      unfold seasonStartDay seasonEndDay at ht
      omega
  · unfold OverlapAnalyzer.analyze_overlap endYearLt Season.is_current
    simp only [Option.isNone_some, Bool.false_eq_true, false_and, if_false,
      Option.some.injEq, decide_eq_true_eq, Option.getD_some]
    split_ifs <;> simp <;> omega
  · intro hno
    unfold OverlapAnalyzer.analyze_overlap endYearLt Season.is_current
    simp only [Option.isNone_some, Bool.false_eq_true, false_and, if_false,
      Option.some.injEq, decide_eq_true_eq, Option.getD_some]
    split_ifs <;> simp <;> omega

/-- Witness for C1 at the adjacent pair 2023-2024 / 2024-2025 (disjoint)
— instantiating the theorem at `a = 2023, b = 2024, c = 2024, d = 2025`. -/
theorem analyze_overlap_finite_no_overlap_iff_witness :
    (2023 : Int) < 2024 ∧ (2024 : Int) < 2025 ∧
      (OverlapAnalyzer.analyze_overlap ⟨2023, some 2024⟩ ⟨2024, some 2025⟩ =
          "NO_OVERLAP" ↔ ((2025 : Int) ≤ 2023 ∨ (2024 : Int) ≤ 2024)) := by
  refine ⟨by decide, by decide, ?_⟩
  exact (analyze_overlap_finite_no_overlap_iff 2023 2024 2024 2025
    (by decide) (by decide)).2.1

/-! ### C5: season bounds stored by `update_school_participation_by_id` -/

/-- Model of Python's `sep in s` substring test. -/
def hasSubstr (pat : List Char) : List Char → Bool
  | [] => pat.isEmpty
  | c :: t => pat.isPrefixOf (c :: t) || hasSubstr pat t

/-- Model of Python's `s.split(sep)[0]` for a non-empty separator: the
prefix before the first occurrence of `sep` (the whole string when `sep`
does not occur). -/
def takeBeforeSubstr (pat : List Char) : List Char → List Char
  | [] => []
  | c :: t => if pat.isPrefixOf (c :: t) then [] else c :: takeBeforeSubstr pat t

/-- The season-bound computation of
`DatabaseManager.update_school_participation_by_id` (manager.py lines
703-712): the season year string is taken from the display string
(`"{y} - current"` or `"{y}-{y2}"`), `start_date = f"{season_year}-09-01"`,
and `end_date` is `NULL` for a current season, else
`f"{int(season_year) + 1}-08-31"`.  `none` models the uncaught
`ValueError` raised by `int(...)` on a malformed year. -/
def participationBounds (season_display : List Char) :
    Option (List Char × Option (List Char)) :=
  if hasSubstr " - current".data season_display then
    some (takeBeforeSubstr " - current".data season_display ++ "-09-01".data, none)
  else
    match pyInt ((splitOnChar '-' season_display).headD []) with
    | none => none
    | some y =>
      some ((splitOnChar '-' season_display).headD [] ++ "-09-01".data,
        some (intStr (y + 1) ++ "-08-31".data))

theorem hasSubstr_of_head_not_mem (p : Char) (pr l : List Char)
    (h : ∀ c ∈ l, c ≠ p) : hasSubstr (p :: pr) l = false := by
  induction l with
  | nil => rfl
  | cons c t ih =>
    have hc : c ≠ p := h c (List.mem_cons_self c t)
    have ht : ∀ x ∈ t, x ≠ p := fun x hx => h x (List.mem_cons_of_mem c hx)
    have hpc : (p == c) = false := beq_eq_false_iff_ne.mpr (Ne.symm hc)
    simp only [hasSubstr, List.isPrefixOf, hpc, Bool.false_and,
      Bool.false_or]
    exact ih ht

theorem hasSubstr_append_self (pat xs : List Char) (hne : pat ≠ []) :
    hasSubstr pat (xs ++ pat) = true := by
  induction xs with
  | nil =>
    match pat, hne with
    | p :: pr, _ =>
      simp only [List.nil_append, hasSubstr, Bool.or_eq_true]
      exact Or.inl ( List.isPrefixOf_iff_prefix.mpr (List.prefix_refl _))
  | cons c t ih =>
    simp only [List.cons_append, hasSubstr, Bool.or_eq_true]
    exact Or.inr ih

theorem takeBeforeSubstr_append (p : Char) (pr xs : List Char)
    (h : ∀ c ∈ xs, c ≠ p) :
    takeBeforeSubstr (p :: pr) (xs ++ p :: pr) = xs := by
  induction xs with
  | nil =>
    simp only [List.nil_append, takeBeforeSubstr]
    rw [if_pos ( List.isPrefixOf_iff_prefix.mpr (List.prefix_refl _))]
  | cons c t ih =>
    have hc : c ≠ p := h c (List.mem_cons_self c t)
    have ht : ∀ x ∈ t, x ≠ p := fun x hx => h x (List.mem_cons_of_mem c hx)
    have hpc : (p == c) = false := beq_eq_false_iff_ne.mpr (Ne.symm hc)
    simp only [List.cons_append, takeBeforeSubstr, List.isPrefixOf, hpc,
      Bool.false_and, if_false, List.append_eq]
    rw [ih ht]
    simp

theorem intStr_ofNat (n : Nat) : intStr (n : Int) = natDigits n := by
  unfold intStr
  rw [if_neg (by omega), Int.toNat_natCast]

theorem natDigits_mem_ne (n : Nat) (d : Char) (hd : d.isDigit = false) :
    ∀ c ∈ natDigits n, c ≠ d :=
  fun c hc => ne_of_isDigit (natDigits_all_digit n c hc) hd

theorem not_mem_natDigits (d : Char) (hd : d.isDigit = false) (n : Nat) :
    d ∉ natDigits n :=
  fun hm => ne_of_isDigit (natDigits_all_digit n d hm) hd rfl

theorem pyInt_natDigits (n : Nat) : pyInt (natDigits n) = some (n : Int) := by
  rw [pyInt_all_digit _ (natDigits_all_digit n) (natDigits_ne_nil n),
    digitsToNat_natDigits]

/-- C5.  A Season's date range is the academic year Sept 1 – Aug 31:
`start_date` is `"{start_year}-09-01"`, `end_date` is
`"{end_year}-08-31"` for a finite season and `None` for a current one;
and `update_school_participation_by_id` stores the same bounds for the
season display string — start `"{year}-09-01"`, and end
`"{year+1}-08-31"` for a finite season or `NULL` for a current season. -/
theorem season_bounds_academic_year (a b : Nat) :
    Season.start_date ⟨(a : Int), some (b : Int)⟩ =
      natDigits a ++ "-09-01".data ∧
    Season.end_date ⟨(a : Int), some (b : Int)⟩ =
      some (natDigits b ++ "-08-31".data) ∧
    Season.start_date ⟨(a : Int), none⟩ = natDigits a ++ "-09-01".data ∧
    Season.end_date ⟨(a : Int), none⟩ = none ∧
    participationBounds (Season.display_name ⟨(a : Int), some (b : Int)⟩) =
      some (natDigits a ++ "-09-01".data,
        some (natDigits (a + 1) ++ "-08-31".data)) ∧
    participationBounds (Season.display_name ⟨(a : Int), none⟩) =
      some (natDigits a ++ "-09-01".data, none) := by
  have hpat : " - current".data = ' ' :: "- current".data := by decide
  refine ⟨?_, ?_, ?_, ?_, ?_, ?_⟩
  · unfold Season.start_date
    dsimp only
    rw [intStr_ofNat]
  · unfold Season.end_date
    dsimp only
    rw [intStr_ofNat]
  · unfold Season.start_date
    dsimp only
    rw [intStr_ofNat]
  · rfl
  · have hdisp : Season.display_name ⟨(a : Int), some (b : Int)⟩ =
        natDigits a ++ '-' :: natDigits b := by
      unfold Season.display_name
      dsimp only
      rw [intStr_ofNat, intStr_ofNat]
    rw [hdisp]
    unfold participationBounds
    have hno : hasSubstr (' ' :: "- current".data)
        (natDigits a ++ '-' :: natDigits b) = false := by
      apply hasSubstr_of_head_not_mem
      intro c hcmem
      rcases List.mem_append.mp hcmem with hm | hm
      · exact natDigits_mem_ne a ' ' (by decide) c hm
      · rcases List.mem_cons.mp hm with hm | hm
        · subst hm; decide
        · exact natDigits_mem_ne b ' ' (by decide) c hm
    rw [hpat, if_neg (by simp [hno])]
    rw [splitOnChar_append '-' _ _ (not_mem_natDigits '-' (by decide) a)]
    dsimp only [List.headD]
    rw [pyInt_natDigits a]
    dsimp only
    rw [show ((a : Int) + 1) = ((a + 1 : Nat) : Int) by push_cast; ring,
      intStr_ofNat]
  · have hdisp : Season.display_name ⟨(a : Int), none⟩ =
        natDigits a ++ " - current".data := by
      unfold Season.display_name
      dsimp only
      rw [intStr_ofNat]
    rw [hdisp]
    unfold participationBounds
    rw [if_pos (by
      rw [hasSubstr_append_self " - current".data (natDigits a) (by decide)])]
    rw [hpat, takeBeforeSubstr_append ' ' "- current".data (natDigits a)
      (natDigits_mem_ne a ' ' (by decide))]

/-! ### Database state model

Rows of the SQLite tables created by `database_initializer.py`
(lines 253-374).  The audit columns (`created_at`, `updated_at`) record
real time and are not modelled; `REAL` columns are modelled as exact
rationals.  `PRAGMA foreign_keys = ON` is in force, so inserts check
foreign keys; `Option`-returning operations model an uncaught
`sqlite3.IntegrityError` as `none`.
-/

structure SchoolRow where
  school_id : Nat
  name : String
  short_name : String
  acronym : String
  crr_name : String
  color : String
deriving DecidableEq

structure TeamRow where
  team_id : Nat
  school_id : Nat
  gender : String
  weight : String
deriving DecidableEq

structure RegattaRow where
  regatta_id : Nat
  name : String
  location : String
  start_date : Option String
  end_date : Option String
deriving DecidableEq

structure EventRow where
  event_id : Nat
  regatta_id : Nat
  boat_type : String
  event_boat_class : String
  gender : String
  weight : String
  round : String
  scheduled_at : Option String
deriving DecidableEq

structure EntryRow where
  entry_id : Nat
  event_id : Nat
  team_id : Nat
  entry_boat_class : Option String
  conference_at_time : String
  seed : Option Int
  notes : String
deriving DecidableEq

structure ResultRow where
  result_id : Nat
  entry_id : Nat
  lane : Option Int
  position : Option Int
  elapsed_sec : Option ℚ
  margin_sec : Option ℚ
deriving DecidableEq

structure AffiliationRow where
  affiliation_id : Nat
  team_id : Nat
  conference : String
  start_date : String
  end_date : Option String
deriving DecidableEq

structure ParticipationRow where
  participation_id : Nat
  school_id : Nat
  start_date : String
  end_date : Option String
  openweight_women : Bool
  heavyweight_men : Bool
  lightweight_men : Bool
  lightweight_women : Bool
deriving DecidableEq

/-- The race-data tables of the database together with the autoincrement
counters (`lastrowid` sources) of the tables these operations insert
into. -/
structure DBState where
  schools : List SchoolRow
  teams : List TeamRow
  regattas : List RegattaRow
  events : List EventRow
  entries : List EntryRow
  results : List ResultRow
  affiliations : List AffiliationRow
  participations : List ParticipationRow
  next_regatta_id : Nat
  next_event_id : Nat
  next_entry_id : Nat
  next_result_id : Nat
deriving DecidableEq

/-- SQLite BINARY collation on TEXT values: lexicographic byte order,
restricted here to codepoint order (all date strings are ASCII). -/
def strLtB : List Char → List Char → Bool
  | [], [] => false
  | [], _ :: _ => true
  | _ :: _, [] => false
  | a :: as, b :: bs => if a < b then true else if b < a then false else strLtB as bs

/-- `x <= y` under the BINARY collation. -/
def strLeB (x y : List Char) : Bool := !strLtB y x

/-- `DatabaseManager.add_regatta` (manager.py lines 338-346). -/
def add_regatta (s : DBState) (name location : String)
    (start_date end_date : Option String) : DBState × Nat :=
  ({ s with
      regattas := s.regattas ++
        [⟨s.next_regatta_id, name, location, start_date, end_date⟩],
      next_regatta_id := s.next_regatta_id + 1 }, s.next_regatta_id)

/-- `DatabaseManager.add_event` (manager.py lines 348-357), checking the
`regatta_id` foreign key and the schema `CHECK` constraints. -/
def add_event (s : DBState) (regatta_id : Nat)
    (boat_type event_boat_class gender weight round_name : String)
    (scheduled_at : Option String) : Option (DBState × Nat) :=
  if s.regattas.any (fun r => r.regatta_id == regatta_id) &&
      (["8+", "4+", "4x", "2x", "1x", "2-"] : List String).contains boat_type &&
      (["M", "W"] : List String).contains gender &&
      (["LW", "HW", "OW"] : List String).contains weight then
    some ({ s with
        events := s.events ++ [⟨s.next_event_id, regatta_id, boat_type,
          event_boat_class, gender, weight, round_name, scheduled_at⟩],
        next_event_id := s.next_event_id + 1 }, s.next_event_id)
  else none

/-- `DatabaseManager.get_event_date` (manager.py lines 359-370):
`COALESCE(e.scheduled_at, r.start_date, '2024-01-01')` over the
event-regatta join, `"2024-01-01"` when the join is empty. -/
def get_event_date (s : DBState) (event_id : Nat) : String :=
  match (s.events.filter (fun e => e.event_id == event_id)).head? with
  | none => "2024-01-01"
  | some e =>
    match (s.regattas.filter (fun r => r.regatta_id == e.regatta_id)).head? with
    | none => "2024-01-01"
    | some r => e.scheduled_at.getD (r.start_date.getD "2024-01-01")

/-- `DatabaseManager.get_team_conference_at_date` (manager.py lines
372-388): the affiliation covering the date (start `<=` date, end `NULL`
or `>` date) with the greatest start date, else `"Unknown"`. -/
def get_team_conference_at_date (s : DBState) (team_id : Nat)
    (event_date : String) : String :=
  let date_only := String.mk (event_date.data.takeWhile (· ≠ ' '))
  let matching := s.affiliations.filter (fun ca =>
    ca.team_id == team_id && strLeB ca.start_date.data date_only.data &&
    (ca.end_date.elim true (fun ed => strLtB date_only.data ed.data)))
  let best := matching.foldl (fun acc ca =>
    match acc with
    | none => some ca
    | some m => if strLtB m.start_date.data ca.start_date.data then some ca else some m)
    none
  match best with
  | some ca => ca.conference
  | none => "Unknown"

/-- `DatabaseManager.add_entry` (manager.py lines 390-406): captures the
team's conference at the event date, then inserts (checking the
`event_id` and `team_id` foreign keys). -/
def add_entry (s : DBState) (event_id team_id : Nat)
    (entry_boat_class : Option String) (notes : String) :
    Option (DBState × Nat) :=
  let event_date := get_event_date s event_id
  let conference_at_time := get_team_conference_at_date s team_id event_date
  if s.events.any (fun e => e.event_id == event_id) &&
      s.teams.any (fun t => t.team_id == team_id) then
    some ({ s with
        entries := s.entries ++ [⟨s.next_entry_id, event_id, team_id,
          entry_boat_class, conference_at_time, none, notes⟩],
        next_entry_id := s.next_entry_id + 1 }, s.next_entry_id)
  else none

/-- `DatabaseManager.add_result` (manager.py lines 479-488): a plain
`INSERT INTO results` — no check against existing results for the same
entry (the schema has no `UNIQUE` on `results.entry_id`); only the
`entry_id` foreign key is enforced. -/
def add_result (s : DBState) (entry_id : Nat) (lane position : Option Int)
    (elapsed_sec margin_sec : Option ℚ) : Option (DBState × Nat) :=
  if s.entries.any (fun e => e.entry_id == entry_id) then
    some ({ s with
        results := s.results ++ [⟨s.next_result_id, entry_id, lane, position,
          elapsed_sec, margin_sec⟩],
        next_result_id := s.next_result_id + 1 }, s.next_result_id)
  else none

/-! ### Transactions and the cascading deletes (C6, C8)

`delete_event` and `delete_regatta` run several `DELETE` statements and a
`commit` inside `try:`, with `conn.rollback()` and a re-`raise` on any
exception.  A connection is modelled as the pair of the last committed
state and the current in-transaction state: statements act on `current`,
`commit` copies `current` to `committed`, `rollback` copies `committed`
back to `current`.  A `fault` index models an environmental SQL exception
raised by that step (`none`: no fault); the re-raised exception is
modelled as `.error "database error"`.
-/

structure Conn where
  committed : DBState
  current : DBState
deriving DecidableEq

/-- `conn.rollback()` followed by `raise`. -/
def rollbackErr (conn : Conn) : Conn × Except String (Nat × Nat × Nat) :=
  ({ conn with current := conn.committed }, .error "database error")

/-- `conn.rollback()` followed by `raise` (quadruple-count variant). -/
def rollbackErr4 (conn : Conn) : Conn × Except String (Nat × Nat × Nat × Nat) :=
  ({ conn with current := conn.committed }, .error "database error")

/-- Subquery of step 1 of `delete_event`: the result's `entry_id` is among
`SELECT entry_id FROM entries WHERE event_id = ?`. -/
def resultInEventCascade (s : DBState) (event_id : Nat) (r : ResultRow) : Bool :=
  s.entries.any (fun e => e.entry_id == r.entry_id && e.event_id == event_id)

/-- `DatabaseManager.delete_event` (manager.py lines 548-578): delete the
results of the event's entries, then the entries, then the event, then
commit; roll back and re-raise on any exception. -/
def delete_event_tx (fault : Option (Fin 4)) (conn : Conn) (event_id : Nat) :
    Conn × Except String (Nat × Nat × Nat) :=
  if fault = some 0 then rollbackErr conn
  else
    let s0 := conn.current
    let results_deleted := (s0.results.filter (resultInEventCascade s0 event_id)).length
    let s1 := { s0 with
      results := s0.results.filter (fun r => !resultInEventCascade s0 event_id r) }
    if fault = some 1 then rollbackErr conn
    else
      let entries_deleted := (s1.entries.filter (fun e => e.event_id == event_id)).length
      let s2 := { s1 with
        entries := s1.entries.filter (fun e => !(e.event_id == event_id)) }
      if fault = some 2 then rollbackErr conn
      else
        let events_deleted := (s2.events.filter (fun e => e.event_id == event_id)).length
        let s3 := { s2 with
          events := s2.events.filter (fun e => !(e.event_id == event_id)) }
        if fault = some 3 then rollbackErr conn
        else ({ committed := s3, current := s3 },
          .ok (results_deleted, entries_deleted, events_deleted))

/-- Subquery of step 1 of `delete_regatta`: the result's `entry_id` is
among the entries joined to events of the regatta. -/
def resultInRegattaCascade (s : DBState) (regatta_id : Nat) (r : ResultRow) : Bool :=
  s.entries.any (fun e => e.entry_id == r.entry_id &&
    s.events.any (fun ev => ev.event_id == e.event_id && ev.regatta_id == regatta_id))

/-- Subquery of step 2 of `delete_regatta`: the entry's `event_id` is
among `SELECT event_id FROM events WHERE regatta_id = ?`. -/
def entryInRegattaCascade (s : DBState) (regatta_id : Nat) (e : EntryRow) : Bool :=
  s.events.any (fun ev => ev.event_id == e.event_id && ev.regatta_id == regatta_id)

/-- `DatabaseManager.delete_regatta` (manager.py lines 596-637): delete
the cascade results → entries → events → regatta, then commit; roll back
and re-raise on any exception. -/
def delete_regatta_tx (fault : Option (Fin 5)) (conn : Conn) (regatta_id : Nat) :
    Conn × Except String (Nat × Nat × Nat × Nat) :=
  if fault = some 0 then rollbackErr4 conn
  else
    let s0 := conn.current
    let results_deleted := (s0.results.filter (resultInRegattaCascade s0 regatta_id)).length
    let s1 := { s0 with
      results := s0.results.filter (fun r => !resultInRegattaCascade s0 regatta_id r) }
    if fault = some 1 then rollbackErr4 conn
    else
      let entries_deleted := (s1.entries.filter (entryInRegattaCascade s1 regatta_id)).length
      let s2 := { s1 with
        entries := s1.entries.filter (fun e => !entryInRegattaCascade s1 regatta_id e) }
      if fault = some 2 then rollbackErr4 conn
      else
        let events_deleted := (s2.events.filter (fun ev => ev.regatta_id == regatta_id)).length
        let s3 := { s2 with
          events := s2.events.filter (fun ev => !(ev.regatta_id == regatta_id)) }
        if fault = some 3 then rollbackErr4 conn
        else
          let regattas_deleted := (s3.regattas.filter (fun rg => rg.regatta_id == regatta_id)).length
          let s4 := { s3 with
            regattas := s3.regattas.filter (fun rg => !(rg.regatta_id == regatta_id)) }
          if fault = some 4 then rollbackErr4 conn
          else ({ committed := s4, current := s4 },
            .ok (results_deleted, entries_deleted, events_deleted, regattas_deleted))

/-- Splitting a list by a Boolean predicate preserves total length. -/
theorem length_filter_not_add {α : Type} (p : α → Bool) (l : List α) :
    (l.filter p).length + (l.filter (fun a => !p a)).length = l.length := by
  induction l with
  | nil => rfl
  | cons a t ih =>
    by_cases h : p a <;> simp [List.filter_cons, h] <;> omega

/-- A result belongs to an event when its entry is an entry of that
event. -/
def resultBelongsToEvent (s : DBState) (event_id : Nat) (r : ResultRow) : Prop :=
  ∃ e ∈ s.entries, e.entry_id = r.entry_id ∧ e.event_id = event_id

/-- A result belongs to a regatta when its entry belongs to an event of
that regatta. -/
def resultBelongsToRegatta (s : DBState) (regatta_id : Nat) (r : ResultRow) : Prop :=
  ∃ e ∈ s.entries, e.entry_id = r.entry_id ∧
    ∃ ev ∈ s.events, ev.event_id = e.event_id ∧ ev.regatta_id = regatta_id

/-- An entry belongs to a regatta when its event belongs to that
regatta. -/
def entryBelongsToRegatta (s : DBState) (regatta_id : Nat) (e : EntryRow) : Prop :=
  ∃ ev ∈ s.events, ev.event_id = e.event_id ∧ ev.regatta_id = regatta_id

theorem resultInEventCascade_iff (s : DBState) (eid : Nat) (r : ResultRow) :
    resultInEventCascade s eid r = true ↔ resultBelongsToEvent s eid r := by
  simp [resultInEventCascade, resultBelongsToEvent, List.any_eq_true,
    Bool.and_eq_true, beq_iff_eq]

theorem resultInRegattaCascade_iff (s : DBState) (rid : Nat) (r : ResultRow) :
    resultInRegattaCascade s rid r = true ↔ resultBelongsToRegatta s rid r := by
  simp [resultInRegattaCascade, resultBelongsToRegatta, List.any_eq_true,
    Bool.and_eq_true, beq_iff_eq]

theorem entryInRegattaCascade_iff (s : DBState) (rid : Nat) (e : EntryRow) :
    entryInRegattaCascade s rid e = true ↔ entryBelongsToRegatta s rid e := by
  simp [entryInRegattaCascade, entryBelongsToRegatta, List.any_eq_true,
    Bool.and_eq_true, beq_iff_eq]

/-- The state left by a successful `delete_regatta` (the four sequential
`DELETE`s collapse to these four filters). -/
def deleteRegattaState (s : DBState) (rid : Nat) : DBState :=
  { s with
    results := s.results.filter (fun r => !resultInRegattaCascade s rid r),
    entries := s.entries.filter (fun e => !entryInRegattaCascade s rid e),
    events := s.events.filter (fun ev => !(ev.regatta_id == rid)),
    regattas := s.regattas.filter (fun rg => !(rg.regatta_id == rid)) }

/-- The state left by a successful `delete_event`. -/
def deleteEventState (s : DBState) (eid : Nat) : DBState :=
  { s with
    results := s.results.filter (fun r => !resultInEventCascade s eid r),
    entries := s.entries.filter (fun e => !(e.event_id == eid)),
    events := s.events.filter (fun ev => !(ev.event_id == eid)) }

theorem delete_regatta_tx_none (s : DBState) (rid : Nat) :
    delete_regatta_tx none ⟨s, s⟩ rid =
      (⟨deleteRegattaState s rid, deleteRegattaState s rid⟩,
        .ok ((s.results.filter (resultInRegattaCascade s rid)).length,
          (s.entries.filter (entryInRegattaCascade s rid)).length,
          (s.events.filter (fun ev => ev.regatta_id == rid)).length,
          (s.regattas.filter (fun rg => rg.regatta_id == rid)).length)) := rfl

theorem delete_event_tx_none (s : DBState) (eid : Nat) :
    delete_event_tx none ⟨s, s⟩ eid =
      (⟨deleteEventState s eid, deleteEventState s eid⟩,
        .ok ((s.results.filter (resultInEventCascade s eid)).length,
          (s.entries.filter (fun e => e.event_id == eid)).length,
          (s.events.filter (fun ev => ev.event_id == eid)).length)) := rfl

/-- C6.  `delete_regatta` deletes exactly the cascade below the regatta —
every result whose entry belongs to an event of the regatta, every entry
of those events, every event of the regatta, and the regatta row —
returning the quadruple of deletion counts, while schools, teams,
conference affiliations, school participations (and every row of other
regattas) are unchanged; `delete_event` does the same for a single
event's cascade. -/
theorem delete_cascades_exactly (s : DBState) (rid eid : Nat) :
    ((delete_regatta_tx none ⟨s, s⟩ rid).1.committed = deleteRegattaState s rid ∧
     (delete_regatta_tx none ⟨s, s⟩ rid).1.current = deleteRegattaState s rid ∧
     (∀ r : ResultRow, r ∈ (deleteRegattaState s rid).results ↔
        r ∈ s.results ∧ ¬resultBelongsToRegatta s rid r) ∧
     (∀ e : EntryRow, e ∈ (deleteRegattaState s rid).entries ↔
        e ∈ s.entries ∧ ¬entryBelongsToRegatta s rid e) ∧
     (∀ ev : EventRow, ev ∈ (deleteRegattaState s rid).events ↔
        ev ∈ s.events ∧ ev.regatta_id ≠ rid) ∧
     (∀ rg : RegattaRow, rg ∈ (deleteRegattaState s rid).regattas ↔
        rg ∈ s.regattas ∧ rg.regatta_id ≠ rid) ∧
     (delete_regatta_tx none ⟨s, s⟩ rid).2 =
       .ok (s.results.length - (deleteRegattaState s rid).results.length,
         s.entries.length - (deleteRegattaState s rid).entries.length,
         s.events.length - (deleteRegattaState s rid).events.length,
         s.regattas.length - (deleteRegattaState s rid).regattas.length) ∧
     (deleteRegattaState s rid).schools = s.schools ∧
     (deleteRegattaState s rid).teams = s.teams ∧
     (deleteRegattaState s rid).affiliations = s.affiliations ∧
     (deleteRegattaState s rid).participations = s.participations) ∧
    ((delete_event_tx none ⟨s, s⟩ eid).1.committed = deleteEventState s eid ∧
     (delete_event_tx none ⟨s, s⟩ eid).1.current = deleteEventState s eid ∧
     (∀ r : ResultRow, r ∈ (deleteEventState s eid).results ↔
        r ∈ s.results ∧ ¬resultBelongsToEvent s eid r) ∧
     (∀ e : EntryRow, e ∈ (deleteEventState s eid).entries ↔
        e ∈ s.entries ∧ e.event_id ≠ eid) ∧
     (∀ ev : EventRow, ev ∈ (deleteEventState s eid).events ↔
        ev ∈ s.events ∧ ev.event_id ≠ eid) ∧
     (delete_event_tx none ⟨s, s⟩ eid).2 =
       .ok (s.results.length - (deleteEventState s eid).results.length,
         s.entries.length - (deleteEventState s eid).entries.length,
         s.events.length - (deleteEventState s eid).events.length) ∧
     (deleteEventState s eid).schools = s.schools ∧
     (deleteEventState s eid).teams = s.teams ∧
     (deleteEventState s eid).regattas = s.regattas ∧
     (deleteEventState s eid).affiliations = s.affiliations ∧
     (deleteEventState s eid).participations = s.participations) := by
  constructor
  · refine ⟨rfl, rfl, ?_, ?_, ?_, ?_, ?_, rfl, rfl, rfl, rfl⟩
    · intro r
      simp [deleteRegattaState, List.mem_filter, Bool.not_eq_true',
        ← resultInRegattaCascade_iff, Bool.not_eq_true]
    · intro e
      simp [deleteRegattaState, List.mem_filter, Bool.not_eq_true',
        ← entryInRegattaCascade_iff, Bool.not_eq_true]
    · intro ev
      simp [deleteRegattaState, List.mem_filter]
    · intro rg
      simp [deleteRegattaState, List.mem_filter]
    · rw [delete_regatta_tx_none]
      have h1 := length_filter_not_add (resultInRegattaCascade s rid) s.results
      have h2 := length_filter_not_add (entryInRegattaCascade s rid) s.entries
      have h3 := length_filter_not_add (fun ev : EventRow => ev.regatta_id == rid) s.events
      have h4 := length_filter_not_add (fun rg : RegattaRow => rg.regatta_id == rid) s.regattas
      simp only [deleteRegattaState, Except.ok.injEq, Prod.mk.injEq]
      refine ⟨?_, ?_, ?_, ?_⟩ <;> omega
  · refine ⟨rfl, rfl, ?_, ?_, ?_, ?_, rfl, rfl, rfl, rfl, rfl⟩
    · intro r
      simp [deleteEventState, List.mem_filter, Bool.not_eq_true',
        ← resultInEventCascade_iff, Bool.not_eq_true]
    · intro e
      simp [deleteEventState, List.mem_filter]
    · intro ev
      simp [deleteEventState, List.mem_filter]
    · rw [delete_event_tx_none]
      have h1 := length_filter_not_add (resultInEventCascade s eid) s.results
      have h2 := length_filter_not_add (fun e : EntryRow => e.event_id == eid) s.entries
      have h3 := length_filter_not_add (fun ev : EventRow => ev.event_id == eid) s.events
      simp only [deleteEventState, Except.ok.injEq, Prod.mk.injEq]
      refine ⟨?_, ?_, ?_⟩ <;> omega

/-- C8.  `delete_regatta` and `delete_event` are atomic: whichever of
their SQL steps (or the final commit) raises, the transaction is rolled
back so the database is exactly as before the call — no partial cascade —
and the exception is re-raised to the caller. -/
theorem delete_rollback_on_error (s : DBState) (rid eid : Nat) :
    (∀ i : Fin 5, delete_regatta_tx (some i) ⟨s, s⟩ rid =
      (⟨s, s⟩, .error "database error")) ∧
    (∀ i : Fin 4, delete_event_tx (some i) ⟨s, s⟩ eid =
      (⟨s, s⟩, .error "database error")) := by
  constructor <;> intro i <;> fin_cases i <;> rfl

/-! ### C3: results per entry -/

/-- Schema-level well-formedness of a database state: unique primary keys
and valid foreign keys (the constraints `database_initializer.py` declares
with `PRIMARY KEY AUTOINCREMENT` and `FOREIGN KEY ... REFERENCES`). -/
def DBInv (s : DBState) : Prop :=
  s.schools.Pairwise (fun a b => a.school_id ≠ b.school_id) ∧
  s.teams.Pairwise (fun a b => a.team_id ≠ b.team_id) ∧
  s.regattas.Pairwise (fun a b => a.regatta_id ≠ b.regatta_id) ∧
  s.events.Pairwise (fun a b => a.event_id ≠ b.event_id) ∧
  s.entries.Pairwise (fun a b => a.entry_id ≠ b.entry_id) ∧
  s.results.Pairwise (fun a b => a.result_id ≠ b.result_id) ∧
  (∀ t ∈ s.teams, ∃ sc ∈ s.schools, sc.school_id = t.school_id) ∧
  (∀ ev ∈ s.events, ∃ rg ∈ s.regattas, rg.regatta_id = ev.regatta_id) ∧
  (∀ e ∈ s.entries, (∃ ev ∈ s.events, ev.event_id = e.event_id) ∧
    (∃ t ∈ s.teams, t.team_id = e.team_id)) ∧
  (∀ r ∈ s.results, ∃ e ∈ s.entries, e.entry_id = r.entry_id) ∧
  (∀ ca ∈ s.affiliations, ∃ t ∈ s.teams, t.team_id = ca.team_id) ∧
  (∀ p ∈ s.participations, ∃ sc ∈ s.schools, sc.school_id = p.school_id)

instance (s : DBState) : Decidable (DBInv s) := by
  unfold DBInv
  infer_instance

/-- One mutation of the race-data tables by a `DatabaseManager`
operation (the school-table operations are modelled separately and do not
touch these tables). -/
inductive DBStep : DBState → DBState → Prop
  | add_regatta_step (s : DBState) (name location : String)
      (sd ed : Option String) :
      DBStep s (add_regatta s name location sd ed).1
  | add_event_step (s : DBState) (rid : Nat) (bt ebc g w rn : String)
      (sa : Option String) (s' : DBState) (k : Nat)
      (h : add_event s rid bt ebc g w rn sa = some (s', k)) : DBStep s s'
  | add_entry_step (s : DBState) (eid tid : Nat) (ebc : Option String)
      (notes : String) (s' : DBState) (k : Nat)
      (h : add_entry s eid tid ebc notes = some (s', k)) : DBStep s s'
  | add_result_step (s : DBState) (eid : Nat) (lane pos : Option Int)
      (el mg : Option ℚ) (s' : DBState) (k : Nat)
      (h : add_result s eid lane pos el mg = some (s', k)) : DBStep s s'
  | delete_event_step (s : DBState) (eid : Nat) :
      DBStep s (deleteEventState s eid)
  | delete_regatta_step (s : DBState) (rid : Nat) :
      DBStep s (deleteRegattaState s rid)

/-- Reachability through `DatabaseManager` operations. -/
inductive DBReachable : DBState → DBState → Prop
  | refl (s : DBState) : DBReachable s s
  | step {s t u : DBState} : DBReachable s t → DBStep t u → DBReachable s u

/-- A well-formed starting database: one school with one openweight-women
team (as `database_initializer.py` would create). -/
def dbS0 : DBState :=
  { schools := [⟨1, "Alpha", "", "", "Alpha", ""⟩],
    teams := [⟨1, 1, "W", "OW"⟩],
    regattas := [], events := [], entries := [], results := [],
    affiliations := [], participations := [],
    next_regatta_id := 1, next_event_id := 1, next_entry_id := 1,
    next_result_id := 1 }

def dbS1 : DBState :=
  (add_regatta dbS0 "Spring Duel" "Lake" (some "2024-05-01")
    (some "2024-05-02")).1

def dbS2 : DBState :=
  ((add_event dbS1 1 "8+" "1V" "W" "OW" "Final" none).getD (dbS0, 0)).1

def dbS3 : DBState := ((add_entry dbS2 1 1 (some "1V") "").getD (dbS0, 0)).1

def dbS4 : DBState := ((add_result dbS3 1 none none none none).getD (dbS0, 0)).1

def dbS5 : DBState := ((add_result dbS4 1 none none none none).getD (dbS0, 0)).1

/-- C3 counterexample: from the well-formed database `dbS0`, the
operations `add_regatta`, `add_event`, `add_entry` and two `add_result`
calls for the same entry reach a state whose results table holds two rows
with `entry_id = 1` — the claimed invariant fails on a reachable state. -/
theorem results_per_entry_not_unique :
    DBInv dbS0 ∧ DBReachable dbS0 dbS5 ∧
      ¬dbS5.results.Pairwise (fun r1 r2 => r1.entry_id ≠ r2.entry_id) := by
  refine ⟨by decide, ?_, by decide⟩
  have h1 : DBStep dbS0 dbS1 :=
    DBStep.add_regatta_step dbS0 "Spring Duel" "Lake" (some "2024-05-01")
      (some "2024-05-02")
  have h2 : DBStep dbS1 dbS2 :=
    DBStep.add_event_step dbS1 1 "8+" "1V" "W" "OW" "Final" none dbS2 1 (by decide)
  have h3 : DBStep dbS2 dbS3 :=
    DBStep.add_entry_step dbS2 1 1 (some "1V") "" dbS3 1 (by decide)
  have h4 : DBStep dbS3 dbS4 :=
    DBStep.add_result_step dbS3 1 none none none none dbS4 1 (by decide)
  have h5 : DBStep dbS4 dbS5 :=
    DBStep.add_result_step dbS4 1 none none none none dbS5 2 (by decide)
  exact .step (.step (.step (.step (.step (.refl dbS0) h1) h2) h3) h4) h5

/-- C3 (amended).  One result per entry is not enforced at the schema or
`DatabaseManager` level: `add_result` checks only that the entry exists
(foreign key) and appends a new results row unconditionally — also when
the entry already has a result — so an entry can accumulate several
result rows.  The one-result shape is kept only by caller convention (the
entries/results tab deletes an event's results before re-inserting). -/
theorem add_result_unconditional_insert (s : DBState) (entry_id : Nat)
    (lane position : Option Int) (elapsed_sec margin_sec : Option ℚ)
    (h : ∃ e ∈ s.entries, e.entry_id = entry_id) :
    add_result s entry_id lane position elapsed_sec margin_sec =
      some ({ s with
        results := s.results ++ [⟨s.next_result_id, entry_id, lane, position,
          elapsed_sec, margin_sec⟩],
        next_result_id := s.next_result_id + 1 }, s.next_result_id) := by
  obtain ⟨e, he, heid⟩ := h
  unfold add_result
  rw [if_pos (List.any_eq_true.mpr ⟨e, he, by simp [heid]⟩)]

/-- Witness for the amended C3 at `dbS4`, whose entry 1 already has a
result row. -/
theorem add_result_unconditional_insert_witness :
    (∃ e ∈ dbS4.entries, e.entry_id = 1) ∧
      add_result dbS4 1 none none none none = some (dbS5, 2) := by
  refine ⟨by decide, ?_⟩
  rw [add_result_unconditional_insert dbS4 1 none none none none (by decide)]
  decide

/-! ### C7: CRR-name management (`DatabaseManager` school methods)

`DatabaseManager` keeps the `schools` table (schema: `crr_name TEXT NOT
NULL UNIQUE`, `database_initializer.py` lines 259-270) together with two
in-memory Python dicts, `school_cache : school_id → School` and
`crr_name_to_id_cache : crr_name → school_id`.  Dicts are modelled as
association lists with insert-replaces-key semantics.
-/

def pyStripStr (s : String) : String := String.mk (pyStrip s.data)

def dictLookup {α β : Type} [DecidableEq α] : List (α × β) → α → Option β
  | [], _ => none
  | (k, v) :: t, k' => if k = k' then some v else dictLookup t k'

/-- Python dict assignment `d[k] = v`: replaces any existing binding. -/
def dictInsert {α β : Type} [DecidableEq α] (k : α) (v : β)
    (d : List (α × β)) : List (α × β) :=
  (k, v) :: d.filter (fun p => decide (p.1 ≠ k))

/-- Python `del d[k]`. -/
def dictErase {α β : Type} [DecidableEq α] (k : α) (d : List (α × β)) :
    List (α × β) :=
  d.filter (fun p => decide (p.1 ≠ k))

theorem dictLookup_filter_ne {α β : Type} [DecidableEq α]
    (d : List (α × β)) (k k' : α) (hne : k ≠ k') :
    dictLookup (d.filter (fun p => decide (p.1 ≠ k))) k' = dictLookup d k' := by
  induction d with
  | nil => rfl
  | cons p t ih =>
    obtain ⟨a, b⟩ := p
    simp only [ne_eq, decide_not] at ih ⊢
    by_cases hak : a = k
    · subst hak
      simp [List.filter_cons, dictLookup, ih, hne]
    · simp [List.filter_cons, hak, dictLookup, ih]

theorem dictLookup_filter_self {α β : Type} [DecidableEq α]
    (d : List (α × β)) (k : α) :
    dictLookup (d.filter (fun p => decide (p.1 ≠ k))) k = none := by
  induction d with
  | nil => rfl
  | cons p t ih =>
    obtain ⟨a, b⟩ := p
    simp only [ne_eq, decide_not] at ih ⊢
    by_cases hak : a = k
    · subst hak
      simp [List.filter_cons, ih]
    · simp [List.filter_cons, hak, dictLookup, ih]

theorem dictLookup_insert {α β : Type} [DecidableEq α] (d : List (α × β))
    (k k' : α) (v : β) :
    dictLookup (dictInsert k v d) k' =
      if k = k' then some v else dictLookup d k' := by
  by_cases h : k = k'
  · simp [dictInsert, dictLookup, h]
  · simp only [dictInsert, dictLookup, if_neg h]
    exact dictLookup_filter_ne d k k' h

theorem dictLookup_erase {α β : Type} [DecidableEq α] (d : List (α × β))
    (k k' : α) :
    dictLookup (dictErase k d) k' =
      if k = k' then none else dictLookup d k' := by
  by_cases h : k = k'
  · subst h
    rw [if_pos rfl]
    exact dictLookup_filter_self d k
  · rw [if_neg h]
    exact dictLookup_filter_ne d k k' h

theorem dictInsert_keys_pairwise {α β : Type} [DecidableEq α]
    (d : List (α × β)) (k : α) (v : β)
    (h : d.Pairwise (fun p q => p.1 ≠ q.1)) :
    (dictInsert k v d).Pairwise (fun p q => p.1 ≠ q.1) := by
  refine List.Pairwise.cons ?_ (h.sublist (List.filter_sublist _))
  intro q hq
  have hq2 := (List.mem_filter.mp hq).2
  simp only [decide_eq_true_eq] at hq2
  exact fun he => hq2 (he ▸ rfl)

theorem dictErase_keys_pairwise {α β : Type} [DecidableEq α]
    (d : List (α × β)) (k : α)
    (h : d.Pairwise (fun p q => p.1 ≠ q.1)) :
    (dictErase k d).Pairwise (fun p q => p.1 ≠ q.1) :=
  h.sublist (List.filter_sublist _)

inductive PyErr
  | valueError (msg : String)
  | integrityError
deriving DecidableEq

/-- The school subsystem of `DatabaseManager`: the `schools` table, its
autoincrement counter, and the two in-memory caches. -/
structure SchoolMgrState where
  schools : List SchoolRow
  next_school_id : Nat
  school_cache : List (Nat × SchoolRow)
  crr_cache : List (String × Nat)
deriving DecidableEq

/-- Construction of the `School` dataclass: `__post_init__` (manager.py
lines 29-32) raises `ValueError` when the CRR name is empty or blank. -/
def mkSchool (school_id : Nat) (name short_name acronym crr_name color : String) :
    Except PyErr SchoolRow :=
  if crr_name = "" ∨ pyStripStr crr_name = "" then
    .error (.valueError "CRR name cannot be empty")
  else .ok ⟨school_id, name, short_name, acronym, crr_name, color⟩

/-- `DatabaseManager.add_school` (manager.py lines 253-289): default the
CRR name to `name`, strip it, reject a cached duplicate with
`ValueError`; the `INSERT` enforces the schema `UNIQUE` on `crr_name`
(`IntegrityError`, rolled back and re-raised); constructing `School`
re-raises on a blank CRR name (rolling back the insert); otherwise both
caches are updated and the insert is committed.  The returned state is
the state after the call (unchanged on every error path). -/
def add_school (st : SchoolMgrState)
    (name short_name acronym crr_name color : String) :
    SchoolMgrState × Except PyErr Nat :=
  let crr1 := if crr_name = "" then name else crr_name
  let crr2 := pyStripStr crr1
  if (dictLookup st.crr_cache crr2).isSome then
    (st, .error (.valueError "CRR name already exists"))
  else if st.schools.any (fun r => r.crr_name == crr2) then
    (st, .error .integrityError)
  else
    match mkSchool st.next_school_id name short_name acronym crr2 color with
    | .error e => (st, .error e)
    | .ok sch =>
      ({ st with
          schools := st.schools ++ [sch],
          next_school_id := st.next_school_id + 1,
          school_cache := dictInsert st.next_school_id sch st.school_cache,
          crr_cache := dictInsert crr2 st.next_school_id st.crr_cache },
        .ok st.next_school_id)

/-- `UPDATE schools SET {field} = ...` on one row. -/
def setSchoolField (r : SchoolRow) (field_name v : String) : SchoolRow :=
  if field_name = "name" then { r with name := v }
  else if field_name = "short_name" then { r with short_name := v }
  else if field_name = "acronym" then { r with acronym := v }
  else if field_name = "crr_name" then { r with crr_name := v }
  else if field_name = "color" then { r with color := v }
  else r

/-- `DatabaseManager.update_school_field` (manager.py lines 159-251):
validate the field name and the school's existence (via `school_cache`);
for `crr_name`, reject an empty/blank value, strip it, and reject (Python
truthiness: a non-zero id different from this school's) a cached owner of
the name; the `UPDATE` enforces the schema `UNIQUE` (`IntegrityError`,
rolled back with the cache restored); then the row and the caches are
updated and committed. -/
def update_school_field (st : SchoolMgrState) (school_id : Nat)
    (field_name new_value : String) : SchoolMgrState × Except PyErr Bool :=
  if ¬(field_name ∈ (["name", "short_name", "acronym", "crr_name", "color"] :
      List String)) then
    (st, .error (.valueError "Invalid field name"))
  else
    match dictLookup st.school_cache school_id with
    | none => (st, .error (.valueError "School not found"))
    | some old_school =>
      if field_name = "crr_name" ∧ (new_value = "" ∨ pyStripStr new_value = "") then
        (st, .error (.valueError "CRR name cannot be empty"))
      else
        let v := if field_name = "crr_name" then pyStripStr new_value else new_value
        if field_name = "crr_name" ∧
            (match dictLookup st.crr_cache v with
             | some existing_id => existing_id ≠ 0 ∧ existing_id ≠ school_id
             | none => False : Bool) then
          (st, .error (.valueError "CRR name is already used by another school"))
        else if field_name = "crr_name" ∧
            st.schools.any (fun r => r.crr_name == v && r.school_id != school_id) then
          (st, .error .integrityError)
        else
          ({ st with
              schools := st.schools.map (fun r =>
                if r.school_id = school_id then setSchoolField r field_name v else r),
              school_cache := dictInsert school_id
                (setSchoolField old_school field_name v) st.school_cache,
              crr_cache :=
                if field_name = "crr_name" then
                  dictInsert v school_id (dictErase old_school.crr_name st.crr_cache)
                else st.crr_cache },
            .ok true)

/-- Elements of a list with pairwise-distinct keys are determined by
their key. -/
theorem pairwise_key_unique {α κ : Type} (key : α → κ) {l : List α}
    (hp : l.Pairwise (fun a b => key a ≠ key b)) {r1 r2 : α}
    (h1 : r1 ∈ l) (h2 : r2 ∈ l) (he : key r1 = key r2) : r1 = r2 := by
  induction l with
  | nil => cases h1
  | cons x t ih =>
    rcases List.mem_cons.mp h1 with rfl | h1t
    · rcases List.mem_cons.mp h2 with rfl | h2t
      · rfl
      · exact absurd he (List.rel_of_pairwise_cons hp h2t)
    · rcases List.mem_cons.mp h2 with rfl | h2t
      · exact absurd he.symm (List.rel_of_pairwise_cons hp h1t)
      · exact ih hp.of_cons h1t h2t

/-- Invariant of the school subsystem: primary keys and CRR names are
unique in the table, rows are well-formed (positive ids below the
autoincrement counter, non-empty CRR names), the CRR cache has unique
keys, and both caches agree with the table. -/
structure MgrInv (st : SchoolMgrState) : Prop where
  ids_distinct : st.schools.Pairwise (fun a b => a.school_id ≠ b.school_id)
  crr_distinct : st.schools.Pairwise (fun a b => a.crr_name ≠ b.crr_name)
  rows_ok : ∀ r ∈ st.schools,
    1 ≤ r.school_id ∧ r.school_id < st.next_school_id ∧ r.crr_name ≠ ""
  next_pos : 1 ≤ st.next_school_id
  crr_keys_distinct : st.crr_cache.Pairwise (fun p q => p.1 ≠ q.1)
  crr_lookup : ∀ c i, dictLookup st.crr_cache c = some i ↔
    ∃ r ∈ st.schools, r.crr_name = c ∧ r.school_id = i
  school_lookup : ∀ i sch, dictLookup st.school_cache i = some sch ↔
    sch ∈ st.schools ∧ sch.school_id = i

theorem add_school_preserves_inv (st : SchoolMgrState)
    (name short_name acronym crr_name color : String) (h : MgrInv st) :
    MgrInv (add_school st name short_name acronym crr_name color).1 := by
  unfold add_school
  dsimp only
  generalize pyStripStr (if crr_name = "" then name else crr_name) = crr2
  split
  · exact h
  · split
    · exact h
    · rename_i hcache htable
      split
      · exact h
      · rename_i sch hok
        unfold mkSchool at hok
        split at hok
        · simp at hok
        · rename_i hblank
          rw [Except.ok.injEq] at hok
          subst hok
          rw [not_or] at hblank
          have hcrr_ne : crr2 ≠ "" := hblank.1
          have htable' : ∀ r ∈ st.schools, r.crr_name ≠ crr2 := by
            intro r hr he
            exact htable (List.any_eq_true.mpr ⟨r, hr, by simp [he]⟩)
          constructor
          · refine List.pairwise_append.mpr
              ⟨h.ids_distinct, List.pairwise_singleton _ _, ?_⟩
            intro r hr r' hr'
            rw [List.mem_singleton.mp hr']
            show r.school_id ≠ st.next_school_id
            have := (h.rows_ok r hr).2.1
            omega
          · refine List.pairwise_append.mpr
              ⟨h.crr_distinct, List.pairwise_singleton _ _, ?_⟩
            intro r hr r' hr'
            rw [List.mem_singleton.mp hr']
            show r.crr_name ≠ crr2
            exact htable' r hr
          · intro r hr
            rcases List.mem_append.mp hr with hr | hr
            · obtain ⟨h1, h2, h3⟩ := h.rows_ok r hr
              refine ⟨h1, ?_, h3⟩
              show r.school_id < st.next_school_id + 1
              omega
            · rw [List.mem_singleton.mp hr]
              exact ⟨h.next_pos, by show st.next_school_id < st.next_school_id + 1; omega,
                hcrr_ne⟩
          · show 1 ≤ st.next_school_id + 1
            omega
          · exact dictInsert_keys_pairwise _ _ _ h.crr_keys_distinct
          · intro c i
            rw [dictLookup_insert]
            by_cases hc : crr2 = c
            · rw [if_pos hc]
              constructor
              · intro hsome
                exact ⟨_, List.mem_append_right _ (List.mem_singleton_self _), hc,
                  Option.some_inj.mp hsome⟩
              · rintro ⟨r, hr, hrc, hri⟩
                rcases List.mem_append.mp hr with hr | hr
                · exact absurd (hc ▸ hrc) (htable' r hr)
                · rw [List.mem_singleton.mp hr] at hri
                  rw [← hri]
            · rw [if_neg hc, h.crr_lookup c i]
              constructor
              · rintro ⟨r, hr, hrc, hri⟩
                exact ⟨r, List.mem_append_left _ hr, hrc, hri⟩
              · rintro ⟨r, hr, hrc, hri⟩
                rcases List.mem_append.mp hr with hr | hr
                · exact ⟨r, hr, hrc, hri⟩
                · rw [List.mem_singleton.mp hr] at hrc
                  exact absurd (hrc ▸ hc) (fun hx => hx rfl)
          · intro i sch
            rw [dictLookup_insert]
            by_cases hi : st.next_school_id = i
            · rw [if_pos hi]
              constructor
              · intro hsome
                rw [← Option.some_inj.mp hsome]
                exact ⟨List.mem_append_right _ (List.mem_singleton_self _), hi⟩
              · rintro ⟨hmem, hid⟩
                rcases List.mem_append.mp hmem with hmem | hmem
                · have := (h.rows_ok sch hmem).2.1
                  omega
                · rw [List.mem_singleton.mp hmem]
            · rw [if_neg hi, h.school_lookup i sch]
              constructor
              · rintro ⟨hmem, hid⟩
                exact ⟨List.mem_append_left _ hmem, hid⟩
              · rintro ⟨hmem, hid⟩
                rcases List.mem_append.mp hmem with hmem | hmem
                · exact ⟨hmem, hid⟩
                · rw [List.mem_singleton.mp hmem] at hid
                  have hid' : st.next_school_id = i := hid
                  exact absurd hid' hi

theorem setSchoolField_school_id (r : SchoolRow) (f v : String) :
    (setSchoolField r f v).school_id = r.school_id := by
  unfold setSchoolField
  split_ifs <;> rfl

theorem setSchoolField_crr_of_ne (r : SchoolRow) (f v : String)
    (hf : f ≠ "crr_name") :
    (setSchoolField r f v).crr_name = r.crr_name := by
  unfold setSchoolField
  split_ifs <;> rfl

theorem setSchoolField_crr (r : SchoolRow) (v : String) :
    setSchoolField r "crr_name" v = { r with crr_name := v } := by
  unfold setSchoolField
  rw [if_neg (by decide), if_neg (by decide), if_neg (by decide), if_pos rfl]

theorem updated_state_inv (st : SchoolMgrState) (school_id : Nat)
    (field_name v : String) (old_school : SchoolRow) (h : MgrInv st)
    (hold_eq : dictLookup st.school_cache school_id = some old_school)
    (hv : field_name = "crr_name" → v ≠ "")
    (hnodup : field_name = "crr_name" →
      ∀ r ∈ st.schools, r.crr_name = v → r.school_id = school_id) :
    MgrInv { st with
      schools := st.schools.map (fun r =>
        if r.school_id = school_id then setSchoolField r field_name v else r),
      school_cache := dictInsert school_id
        (setSchoolField old_school field_name v) st.school_cache,
      crr_cache :=
        if field_name = "crr_name" then
          dictInsert v school_id (dictErase old_school.crr_name st.crr_cache)
        else st.crr_cache } := by
  obtain ⟨hold_mem, hold_id⟩ := (h.school_lookup school_id old_school).mp hold_eq
  have hfid : ∀ r : SchoolRow,
      ((if r.school_id = school_id then setSchoolField r field_name v else r) :
        SchoolRow).school_id = r.school_id := by
    intro r
    by_cases hr : r.school_id = school_id
    · rw [if_pos hr, setSchoolField_school_id]
    · rw [if_neg hr]
  have hrow_id : ∀ r ∈ st.schools, r.school_id = school_id → r = old_school := by
    intro r hr hid
    exact pairwise_key_unique (fun x => x.school_id) h.ids_distinct hr hold_mem
      (by show r.school_id = old_school.school_id; rw [hid, hold_id])
  constructor
  case ids_distinct =>
    rw [List.pairwise_map]
    exact h.ids_distinct.imp (fun hab => by rw [hfid, hfid]; exact hab)
  case crr_distinct =>
    rw [List.pairwise_map]
    by_cases hf : field_name = "crr_name"
    · subst hf
      have hnodup' := hnodup rfl
      refine List.Pairwise.imp_of_mem ?_ ((h.ids_distinct).and (h.crr_distinct))
      intro a b ha hb hab
      obtain ⟨hid, hcrr⟩ := hab
      by_cases hasid : a.school_id = school_id <;>
        by_cases hbsid : b.school_id = school_id
      · exact absurd (hasid.trans hbsid.symm) hid
      · rw [if_pos hasid, if_neg hbsid, setSchoolField_crr]
        intro he
        exact hbsid (hnodup' b hb he.symm)
      · rw [if_neg hasid, if_pos hbsid, setSchoolField_crr]
        intro he
        exact hasid (hnodup' a ha he)
      · rw [if_neg hasid, if_neg hbsid]
        exact hcrr
    · have hcrr_eq : ∀ r : SchoolRow,
          ((if r.school_id = school_id then setSchoolField r field_name v else r) :
            SchoolRow).crr_name = r.crr_name := by
        intro r
        by_cases hr : r.school_id = school_id
        · rw [if_pos hr, setSchoolField_crr_of_ne r field_name v hf]
        · rw [if_neg hr]
      exact h.crr_distinct.imp (fun hab => by rw [hcrr_eq, hcrr_eq]; exact hab)
  case rows_ok =>
    intro r' hr'
    obtain ⟨r, hr, rfl⟩ := List.mem_map.mp hr'
    obtain ⟨h1, h2, h3⟩ := h.rows_ok r hr
    refine ⟨?_, ?_, ?_⟩
    · rw [hfid]
      exact h1
    · rw [hfid]
      exact h2
    · by_cases hrid : r.school_id = school_id
      · rw [if_pos hrid]
        by_cases hf : field_name = "crr_name"
        · subst hf
          rw [setSchoolField_crr]
          exact hv rfl
        · rw [setSchoolField_crr_of_ne r field_name v hf]
          exact h3
      · rw [if_neg hrid]
        exact h3
  case next_pos => exact h.next_pos
  case crr_keys_distinct =>
    by_cases hf : field_name = "crr_name"
    · rw [if_pos hf]
      exact dictInsert_keys_pairwise _ _ _
        (dictErase_keys_pairwise _ _ h.crr_keys_distinct)
    · rw [if_neg hf]
      exact h.crr_keys_distinct
  case crr_lookup =>
    intro c i
    by_cases hf : field_name = "crr_name"
    · subst hf
      have hnodup' := hnodup rfl
      rw [if_pos rfl, dictLookup_insert, dictLookup_erase]
      by_cases hcv : v = c
      · subst hcv
        rw [if_pos rfl]
        constructor
        · intro hsome
          obtain rfl : school_id = i := Option.some_inj.mp hsome
          refine ⟨(if old_school.school_id = school_id
              then setSchoolField old_school "crr_name" v else old_school),
            List.mem_map_of_mem _ hold_mem, ?_, ?_⟩
          · rw [if_pos hold_id, setSchoolField_crr]
          · rw [if_pos hold_id, setSchoolField_crr]
            exact hold_id
        · rintro ⟨r', hr', hc, hi⟩
          obtain ⟨r, hr, rfl⟩ := List.mem_map.mp hr'
          by_cases hrid : r.school_id = school_id
          · rw [hfid] at hi
            have : school_id = i := by rw [← hrid]; exact hi
            rw [this]
          · rw [if_neg hrid] at hc
            exact absurd (hnodup' r hr hc) hrid
      · rw [if_neg hcv]
        by_cases hco : old_school.crr_name = c
        · rw [if_pos hco]
          constructor
          · intro hsome
            cases hsome
          · rintro ⟨r', hr', hc, hi⟩
            obtain ⟨r, hr, rfl⟩ := List.mem_map.mp hr'
            by_cases hrid : r.school_id = school_id
            · rw [if_pos hrid, setSchoolField_crr] at hc
              exact absurd hc hcv
            · rw [if_neg hrid] at hc
              have hre : r = old_school := pairwise_key_unique
                (fun x => x.crr_name) h.crr_distinct hr hold_mem
                (by show r.crr_name = old_school.crr_name; rw [hc, hco])
              exact absurd (by rw [hre, hold_id]) hrid
        · rw [if_neg hco, h.crr_lookup c i]
          constructor
          · rintro ⟨r, hr, hc, hi⟩
            have hrid : r.school_id ≠ school_id := by
              intro hid
              rw [hrow_id r hr hid] at hc
              exact hco hc
            have hfr : (if r.school_id = school_id
                then setSchoolField r "crr_name" v else r) = r := if_neg hrid
            exact ⟨r, hfr ▸ List.mem_map_of_mem _ hr, hc, hi⟩
          · rintro ⟨r', hr', hc, hi⟩
            obtain ⟨r, hr, rfl⟩ := List.mem_map.mp hr'
            by_cases hrid : r.school_id = school_id
            · rw [if_pos hrid, setSchoolField_crr] at hc
              exact absurd hc hcv
            · rw [if_neg hrid] at hc hi
              exact ⟨r, hr, hc, hi⟩
    · have hcrr_eq : ∀ r : SchoolRow,
          ((if r.school_id = school_id then setSchoolField r field_name v else r) :
            SchoolRow).crr_name = r.crr_name := by
        intro r
        by_cases hr : r.school_id = school_id
        · rw [if_pos hr, setSchoolField_crr_of_ne r field_name v hf]
        · rw [if_neg hr]
      rw [if_neg hf, h.crr_lookup c i]
      constructor
      · rintro ⟨r, hr, hc, hi⟩
        exact ⟨_, List.mem_map_of_mem _ hr, by rw [hcrr_eq]; exact hc,
          by rw [hfid]; exact hi⟩
      · rintro ⟨r', hr', hc, hi⟩
        obtain ⟨r, hr, rfl⟩ := List.mem_map.mp hr'
        rw [hcrr_eq] at hc
        rw [hfid] at hi
        exact ⟨r, hr, hc, hi⟩
  case school_lookup =>
    intro i sch
    rw [dictLookup_insert]
    by_cases hi : school_id = i
    · subst hi
      rw [if_pos rfl]
      constructor
      · intro hsome
        obtain rfl := Option.some_inj.mp hsome
        refine ⟨?_, ?_⟩
        · have hfr : (if old_school.school_id = school_id
              then setSchoolField old_school field_name v else old_school) =
              setSchoolField old_school field_name v := if_pos hold_id
          exact hfr ▸ List.mem_map_of_mem _ hold_mem
        · rw [setSchoolField_school_id]
          exact hold_id
      · rintro ⟨hmem, hid⟩
        obtain ⟨r, hr, rfl⟩ := List.mem_map.mp hmem
        rw [hfid] at hid
        have hr_old : r = old_school := hrow_id r hr hid
        subst hr_old
        rw [if_pos hid]
    · rw [if_neg hi, h.school_lookup i sch]
      constructor
      · rintro ⟨hmem, hid⟩
        have hrid : sch.school_id ≠ school_id := by
          rw [hid]
          exact fun hx => hi hx.symm
        have hfr : (if sch.school_id = school_id
            then setSchoolField sch field_name v else sch) = sch := if_neg hrid
        exact ⟨hfr ▸ List.mem_map_of_mem _ hmem, hid⟩
      · rintro ⟨hmem, hid⟩
        obtain ⟨r, hr, rfl⟩ := List.mem_map.mp hmem
        rw [hfid] at hid
        have hrid : r.school_id ≠ school_id := by
          rw [hid]
          exact fun hx => hi hx.symm
        rw [if_neg hrid]
        exact ⟨hr, hid⟩

theorem update_school_field_preserves_inv (st : SchoolMgrState)
    (school_id : Nat) (field_name new_value : String) (h : MgrInv st) :
    MgrInv (update_school_field st school_id field_name new_value).1 := by
  unfold update_school_field
  dsimp only
  split
  · exact h
  · split
    · exact h
    · rename_i old_school hold_eq
      split
      · exact h
      · rename_i hblank
        split
        · rename_i hf
          split
          · exact h
          · rename_i hcache
            split
            · exact h
            · rename_i huniq
              have hv : field_name = "crr_name" → pyStripStr new_value ≠ "" :=
                fun _ hveq => hblank ⟨hf, Or.inr hveq⟩
              have hnd : field_name = "crr_name" →
                  ∀ r ∈ st.schools, r.crr_name = pyStripStr new_value →
                    r.school_id = school_id := by
                intro _ r hr hrc
                by_contra hne
                refine huniq ⟨hf, List.any_eq_true.mpr ⟨r, hr, ?_⟩⟩
                rw [Bool.and_eq_true, beq_iff_eq, bne_iff_ne]
                exact ⟨hrc, hne⟩
              have hmain := updated_state_inv st school_id field_name
                (pyStripStr new_value) old_school h hold_eq hv hnd
              rw [if_pos hf] at hmain
              exact hmain
        · rename_i hf
          split
          · exact h
          · split
            · exact h
            · have hmain := updated_state_inv st school_id field_name new_value
                old_school h hold_eq (fun hf' => absurd hf' hf)
                (fun hf' => absurd hf' hf)
              rw [if_neg hf] at hmain
              exact hmain

theorem add_school_duplicate_raises (st : SchoolMgrState)
    (name short_name acronym crr_name color : String)
    (h : (dictLookup st.crr_cache
      (pyStripStr (if crr_name = "" then name else crr_name))).isSome) :
    (add_school st name short_name acronym crr_name color).1 = st ∧
    (add_school st name short_name acronym crr_name color).2 =
      .error (.valueError "CRR name already exists") := by
  unfold add_school
  dsimp only
  rw [if_pos h]
  exact ⟨rfl, rfl⟩

theorem update_crr_invalid_raises (st : SchoolMgrState) (school_id : Nat)
    (new_value : String) (old_school : SchoolRow)
    (hold : dictLookup st.school_cache school_id = some old_school)
    (hbad : new_value = "" ∨ pyStripStr new_value = "" ∨
      (∃ i, dictLookup st.crr_cache (pyStripStr new_value) = some i ∧
        i ≠ 0 ∧ i ≠ school_id)) :
    (update_school_field st school_id "crr_name" new_value).1 = st ∧
    ∃ m, (update_school_field st school_id "crr_name" new_value).2 =
      .error (.valueError m) := by
  unfold update_school_field
  rw [if_neg (by simp), hold]
  dsimp only
  by_cases hblank : new_value = "" ∨ pyStripStr new_value = ""
  · rw [if_pos ⟨rfl, hblank⟩]
    exact ⟨rfl, _, rfl⟩
  · rcases hbad with hb | hb | ⟨i, hbl, hbi0, hbis⟩
    · exact absurd (Or.inl hb) hblank
    · exact absurd (Or.inr hb) hblank
    · rw [if_neg (fun hx => hblank hx.2)]
      rw [if_pos ⟨rfl, by rw [if_pos rfl, hbl]; simp [hbi0, hbis]⟩]
      exact ⟨rfl, _, rfl⟩

/-- One school-mutating `DatabaseManager` operation. -/
inductive SchoolStep : SchoolMgrState → SchoolMgrState → Prop
  | add_school_step (st : SchoolMgrState) (n sn a c col : String) :
      SchoolStep st (add_school st n sn a c col).1
  | update_school_field_step (st : SchoolMgrState) (sid : Nat) (f v : String) :
      SchoolStep st (update_school_field st sid f v).1

/-- Reachability through the school-mutating operations. -/
inductive SchoolReachable : SchoolMgrState → SchoolMgrState → Prop
  | refl (st : SchoolMgrState) : SchoolReachable st st
  | step {s t u : SchoolMgrState} :
      SchoolReachable s t → SchoolStep t u → SchoolReachable s u

/-- C7.  CRR names uniquely identify schools and every school-mutating
operation preserves that: in every state reachable from a well-formed
state, no two schools share a `crr_name` and the
`crr_name_to_id_cache` maps each CRR name to exactly one `school_id`
(consistently with the table); `add_school` leaves the state unchanged
and raises `ValueError` when the given (or name-defaulted, stripped) CRR
name is already cached; and `update_school_field(id, 'crr_name', v)`
leaves the state unchanged and raises `ValueError` when `v` is
empty/blank or already cached for a different school. -/
theorem crr_name_unique_invariant (st₀ st : SchoolMgrState)
    (h0 : MgrInv st₀) (hr : SchoolReachable st₀ st) :
    MgrInv st ∧
    st.schools.Pairwise (fun a b => a.crr_name ≠ b.crr_name) ∧
    st.crr_cache.Pairwise (fun p q => p.1 ≠ q.1) ∧
    (∀ c i, dictLookup st.crr_cache c = some i ↔
      ∃ r ∈ st.schools, r.crr_name = c ∧ r.school_id = i) ∧
    (∀ name short_name acronym crr_name color,
      (dictLookup st.crr_cache
        (pyStripStr (if crr_name = "" then name else crr_name))).isSome →
      (add_school st name short_name acronym crr_name color).1 = st ∧
      (add_school st name short_name acronym crr_name color).2 =
        .error (.valueError "CRR name already exists")) ∧
    (∀ school_id new_value old_school,
      dictLookup st.school_cache school_id = some old_school →
      (new_value = "" ∨ pyStripStr new_value = "" ∨
        (∃ i, dictLookup st.crr_cache (pyStripStr new_value) = some i ∧
          i ≠ 0 ∧ i ≠ school_id)) →
      (update_school_field st school_id "crr_name" new_value).1 = st ∧
      ∃ m, (update_school_field st school_id "crr_name" new_value).2 =
        .error (.valueError m)) := by
  have hinv : MgrInv st := by
    induction hr with
    | refl => exact h0
    | step hra hs ih =>
      cases hs with
      | add_school_step n sn a c col =>
        exact add_school_preserves_inv _ n sn a c col ih
      | update_school_field_step sid f v =>
        exact update_school_field_preserves_inv _ sid f v ih
  exact ⟨hinv, hinv.crr_distinct, hinv.crr_keys_distinct, hinv.crr_lookup,
    fun n sn a c col hdup => add_school_duplicate_raises st n sn a c col hdup,
    fun sid v old hold hbad => update_crr_invalid_raises st sid v old hold hbad⟩

/-- Witness for C7 at the empty school database (the invariant holds and
the theorem applies along the empty trace). -/
theorem crr_name_unique_invariant_witness :
    MgrInv ⟨[], 1, [], []⟩ ∧
      (⟨[], 1, [], []⟩ : SchoolMgrState).schools.Pairwise
        (fun a b => a.crr_name ≠ b.crr_name) := by
  have hinv0 : MgrInv (⟨[], 1, [], []⟩ : SchoolMgrState) := by
    refine ⟨List.Pairwise.nil, List.Pairwise.nil, by simp, Nat.le_refl 1,
      List.Pairwise.nil, ?_, ?_⟩
    · intro c i
      constructor
      · intro hx
        cases hx
      · rintro ⟨r, hr, -⟩
        cases hr
    · intro i sch
      constructor
      · intro hx
        cases hx
      · rintro ⟨hr, -⟩
        cases hr
  exact ⟨hinv0,
    (crr_name_unique_invariant _ _ hinv0 (SchoolReachable.refl _)).2.1⟩
